import Mathlib

/-!
Verification of the TPC-H relational-to-graph loading pipeline
(`src/memgraph/load.py`, `src/arangodb/load.py`) against its design
specification.  The Python source is shallowly embedded: pure record
mapping becomes Lean functions on row structures, the Cypher query
templates of the Memgraph variant become explicit graph-state
transformers, and the write calls issued by the ArangoDB variant
become explicit call traces.
-/

namespace TPCH

/-! ## Batch chunking

`MemgraphTPCH.batch_load` iterates `for i in range(0, len(data), batch_size)`
taking the slice `data[i:i + batch_size]` per iteration;
`ArangoTPCH.aload_lineitem` iterates batch numbers `0 ..< total_batches`
with `total_batches = (total_rows + batch_size - 1) // batch_size` and the
slice `df.iloc[batch_num*batch_size : min((batch_num+1)*batch_size, total_rows)]`.
`chunkList` is the common recursive form of that chunking; both loop shapes
are embedded literally below (`pySliceChunks`, `arangoLineitemChunks`) and
proved equal to it. -/

/-- Partition a list into consecutive chunks of size `n` (last chunk may be
shorter).  Returns `[]` when `n = 0`; the Python source never calls the
batcher with a zero batch size (`range(0, len, 0)` would raise). -/
def chunkList (n : Nat) (l : List α) : List (List α) :=
  if _h : l.length = 0 ∨ n = 0 then []
  else l.take n :: chunkList n (l.drop n)
termination_by l.length
decreasing_by
  simp only [List.length_drop]
  omega

theorem chunkList_nil (n : Nat) : chunkList n ([] : List α) = [] := by
  rw [chunkList]
  simp

theorem chunkList_cons (n : Nat) (l : List α) (hl : l ≠ []) (hn : 0 < n) :
    chunkList n l = l.take n :: chunkList n (l.drop n) := by
  rw [chunkList]
  simp [List.length_eq_zero, hl, Nat.pos_iff_ne_zero.mp hn]

theorem chunkList_eq_nil_iff (n : Nat) (l : List α) (hn : 0 < n) :
    chunkList n l = [] ↔ l = [] := by
  constructor
  · intro h
    by_contra hne
    rw [chunkList_cons n l hne hn] at h
    exact List.cons_ne_nil _ _ h
  · intro h
    subst h
    exact chunkList_nil n

/-- The number of chunks is `⌈|l| / n⌉`, written with the same integer
arithmetic as the source: `(len + n - 1) / n`. -/
theorem chunkList_length (n : Nat) (hn : 0 < n) (l : List α) :
    (chunkList n l).length = (l.length + n - 1) / n := by
  obtain ⟨m, hm⟩ : ∃ m, l.length ≤ m := ⟨l.length, le_refl _⟩
  induction m generalizing l with
  | zero =>
    have : l = [] := List.length_eq_zero.mp (Nat.le_zero.mp hm)
    subst this
    simp [chunkList_nil, Nat.div_eq_of_lt (Nat.sub_lt hn Nat.one_pos)]
  | succ m ih =>
    rcases eq_or_ne l [] with rfl | hne
    · simp [chunkList_nil, Nat.div_eq_of_lt (Nat.sub_lt hn Nat.one_pos)]
    · have hpos : 0 < l.length := List.length_pos.mpr hne
      rw [chunkList_cons n l hne hn]
      rcases le_or_lt l.length n with hle | hlt
      · have hdrop : l.drop n = [] := List.drop_eq_nil_of_le hle
        rw [hdrop, chunkList_nil]
        have : (l.length + n - 1) / n = 1 :=
          Nat.div_eq_of_lt_le (by omega) (by omega)
        simp [this]
      · have hdlen : (l.drop n).length = l.length - n := List.length_drop n l
        have ihd := ih (l.drop n) (by omega)
        rw [List.length_cons, ihd, hdlen]
        have h1 : l.length - n + n - 1 = l.length - 1 := by omega
        have h2 : l.length + n - 1 = (l.length - 1) + n := by omega
        rw [h1, h2, Nat.add_div_right _ hn]

/-- Every chunk except possibly the last holds exactly `n` records. -/
theorem chunkList_dropLast (n : Nat) (hn : 0 < n) (l : List α) :
    ∀ c ∈ (chunkList n l).dropLast, c.length = n := by
  obtain ⟨m, hm⟩ : ∃ m, l.length ≤ m := ⟨l.length, le_refl _⟩
  induction m generalizing l with
  | zero =>
    have : l = [] := List.length_eq_zero.mp (Nat.le_zero.mp hm)
    subst this
    simp [chunkList_nil]
  | succ m ih =>
    rcases eq_or_ne l [] with rfl | hne
    · simp [chunkList_nil]
    · rw [chunkList_cons n l hne hn]
      rcases eq_or_ne (chunkList n (l.drop n)) [] with hrest | hrest
      · simp [hrest]
      · have hdne : l.drop n ≠ [] := by
          intro h
          rw [h, chunkList_nil] at hrest
          exact hrest rfl
        have hlong : n < l.length := by
          by_contra h
          exact hdne (List.drop_eq_nil_of_le (by omega))
        obtain ⟨b, t, hbt⟩ := List.exists_cons_of_ne_nil hrest
        rw [hbt, List.dropLast_cons₂]
        intro c hc
        rcases List.mem_cons.mp hc with rfl | hc
        · rw [List.length_take]
          omega
        · have hdlen : (l.drop n).length = l.length - n := List.length_drop n l
          exact ih (l.drop n) (by omega) c (by rw [hbt]; exact hc)

/-- The last chunk holds `|l| mod n` records, or `n` when `n` divides `|l|`. -/
theorem chunkList_getLast (n : Nat) (hn : 0 < n) (l : List α) (hne : l ≠ []) :
    ∃ c, (chunkList n l).getLast? = some c ∧
      c.length = if l.length % n = 0 then n else l.length % n := by
  obtain ⟨m, hm⟩ : ∃ m, l.length ≤ m := ⟨l.length, le_refl _⟩
  induction m generalizing l with
  | zero =>
    exact absurd (List.length_eq_zero.mp (Nat.le_zero.mp hm)) hne
  | succ m ih =>
    have hpos : 0 < l.length := List.length_pos.mpr hne
    rw [chunkList_cons n l hne hn]
    rcases le_or_lt l.length n with hle | hlt
    · have hdrop : l.drop n = [] := List.drop_eq_nil_of_le hle
      rw [hdrop, chunkList_nil]
      refine ⟨l.take n, rfl, ?_⟩
      rw [List.take_of_length_le hle]
      rcases eq_or_lt_of_le hle with rfl | hlt
      · simp
      · rw [Nat.mod_eq_of_lt hlt]
        simp [Nat.pos_iff_ne_zero.mp hpos]
    · have hdne : l.drop n ≠ [] := by
        intro h
        have hd := List.length_drop n l
        rw [h] at hd
        simp at hd
        omega
      have hdlen : (l.drop n).length = l.length - n := List.length_drop n l
      obtain ⟨c, hc1, hc2⟩ := ih (l.drop n) hdne (by omega)
      have hrest : chunkList n (l.drop n) ≠ [] :=
        fun h => hdne ((chunkList_eq_nil_iff n (l.drop n) hn).mp h)
      obtain ⟨b, t, hbt⟩ := List.exists_cons_of_ne_nil hrest
      refine ⟨c, ?_, ?_⟩
      · rw [hbt, List.getLast?_cons_cons, ← hbt]
        exact hc1
      · rw [hc2, hdlen, ← Nat.mod_eq_sub_mod (le_of_lt hlt)]

/-- Concatenating the chunks in order reconstructs the original sequence. -/
theorem chunkList_join (n : Nat) (hn : 0 < n) (l : List α) :
    (chunkList n l).flatten = l := by
  obtain ⟨m, hm⟩ : ∃ m, l.length ≤ m := ⟨l.length, le_refl _⟩
  induction m generalizing l with
  | zero =>
    have : l = [] := List.length_eq_zero.mp (Nat.le_zero.mp hm)
    subst this
    simp [chunkList_nil]
  | succ m ih =>
    rcases eq_or_ne l [] with rfl | hne
    · simp [chunkList_nil]
    · have hpos : 0 < l.length := List.length_pos.mpr hne
      have hdlen : (l.drop n).length = l.length - n := List.length_drop n l
      rw [chunkList_cons n l hne hn, List.flatten_cons, ih (l.drop n) (by omega)]
      exact List.take_append_drop n l

/-- The slicing loop of `MemgraphTPCH.batch_load`:
`for i in range(0, len(data), batch_size): batch = data[i:i + batch_size]`,
indexed by batch number `k` (offset `i = k * batch_size`); the offset list
`range(0, L, bs)` has `(L + bs - 1) // bs` elements. -/
def pySliceChunks (bs : Nat) (data : List α) : List (List α) :=
  (List.range ((data.length + bs - 1) / bs)).map fun k => (data.drop (k * bs)).take bs

/-- The slicing loop of `ArangoTPCH.aload_lineitem`:
`total_batches = (total_rows + batch_size - 1) // batch_size`, and for each
`batch_num`, `batch_df = df.iloc[start_idx:end_idx]` with
`start_idx = batch_num * batch_size` and
`end_idx = min((batch_num + 1) * batch_size, total_rows)`. -/
def arangoLineitemChunks (bs : Nat) (rows : List α) : List (List α) :=
  (List.range ((rows.length + bs - 1) / bs)).map fun b =>
    (rows.drop (b * bs)).take (min ((b + 1) * bs) rows.length - b * bs)

theorem arango_chunk_eq (bs : Nat) (rows : List α) (b : Nat) :
    (rows.drop (b * bs)).take (min ((b + 1) * bs) rows.length - b * bs)
      = (rows.drop (b * bs)).take bs := by
  have hmul : (b + 1) * bs = b * bs + bs := by rw [Nat.succ_mul]
  rcases le_or_lt ((b + 1) * bs) rows.length with h | h
  · rw [min_eq_left h, hmul]
    congr 1
    omega
  · rw [min_eq_right (le_of_lt h)]
    have hdlen : (rows.drop (b * bs)).length = rows.length - b * bs :=
      List.length_drop _ _
    rw [hmul] at h
    rw [List.take_of_length_le (by omega), List.take_of_length_le (by omega)]

theorem pySliceChunks_eq_chunkList (bs : Nat) (hbs : 0 < bs) (data : List α) :
    pySliceChunks bs data = chunkList bs data := by
  obtain ⟨m, hm⟩ : ∃ m, data.length ≤ m := ⟨data.length, le_refl _⟩
  induction m generalizing data with
  | zero =>
    have : data = [] := List.length_eq_zero.mp (Nat.le_zero.mp hm)
    subst this
    simp [pySliceChunks, chunkList_nil, Nat.div_eq_of_lt (Nat.sub_lt hbs Nat.one_pos)]
  | succ m ih =>
    rcases eq_or_ne data [] with rfl | hne
    · simp [pySliceChunks, chunkList_nil, Nat.div_eq_of_lt (Nat.sub_lt hbs Nat.one_pos)]
    · have hpos : 0 < data.length := List.length_pos.mpr hne
      have hdlen : (data.drop bs).length = data.length - bs := List.length_drop bs data
      have hceil : (data.length + bs - 1) / bs
          = ((data.length - bs) + bs - 1) / bs + 1 := by
        rcases le_or_lt data.length bs with hle | hlt
        · have h0 : data.length - bs = 0 := by omega
          have hL : (data.length + bs - 1) / bs = 1 :=
            Nat.div_eq_of_lt_le (by omega) (by omega)
          have hR : (0 + bs - 1) / bs = 0 := Nat.div_eq_of_lt (by omega)
          rw [h0, hL, hR]
        · have h1 : data.length - bs + bs - 1 = data.length - 1 := by omega
          have h2 : data.length + bs - 1 = (data.length - 1) + bs := by omega
          rw [h1, h2, Nat.add_div_right _ hbs]
      rw [pySliceChunks, hceil, List.range_succ_eq_map, List.map_cons, List.map_map]
      rw [chunkList_cons bs data hne hbs, ← ih (data.drop bs) (by omega)]
      congr 1
      · simp
      · rw [pySliceChunks, hdlen]
        apply List.map_congr_left
        intro k _
        simp only [Function.comp_apply]
        rw [Nat.succ_mul, Nat.add_comm (k * bs) bs, ← List.drop_drop]

theorem arangoLineitemChunks_eq_chunkList (bs : Nat) (hbs : 0 < bs) (rows : List α) :
    arangoLineitemChunks bs rows = chunkList bs rows := by
  rw [← pySliceChunks_eq_chunkList bs hbs rows, arangoLineitemChunks, pySliceChunks]
  exact List.map_congr_left fun b _ => arango_chunk_eq bs rows b

/-! ## Scalar values and source rows

Key fields are 64-bit integers after `pd.read_csv` parsing, rendered in
decimal by Python f-strings / `str()`; this is modelled by `Int` and
`toString`.  Non-key fields (names, comments, prices, dates, ...) are never
inspected by the pipeline — they are copied verbatim into documents and
properties — so they are carried opaquely as strings. -/

/-- A scalar stored in a document field or graph property. -/
inductive Val where
  | i (n : Int)
  | s (str : String)
deriving DecidableEq, Repr

/-- Named fields of a document or of a node/relationship property map. -/
abbrev Attrs := List (String × Val)

/-- A row of `region.tbl` (first 3 columns). -/
structure RegionRow where
  r_regionkey : Int
  r_name : String
  r_comment : String
deriving DecidableEq, Repr

/-- A row of `nation.tbl` (first 4 columns). -/
structure NationRow where
  n_nationkey : Int
  n_name : String
  n_regionkey : Int
  n_comment : String
deriving DecidableEq, Repr

/-- A row of `supplier.tbl` (first 7 columns). -/
structure SupplierRow where
  s_suppkey : Int
  s_name : String
  s_address : String
  s_nationkey : Int
  s_phone : String
  s_acctbal : String
  s_comment : String
deriving DecidableEq, Repr

/-- A row of `customer.tbl` (first 8 columns). -/
structure CustomerRow where
  c_custkey : Int
  c_name : String
  c_address : String
  c_nationkey : Int
  c_phone : String
  c_acctbal : String
  c_mktsegment : String
  c_comment : String
deriving DecidableEq, Repr

/-- A row of `part.tbl` (first 9 columns). -/
structure PartRow where
  p_partkey : Int
  p_name : String
  p_mfgr : String
  p_brand : String
  p_type : String
  p_size : String
  p_container : String
  p_retailprice : String
  p_comment : String
deriving DecidableEq, Repr

/-- A row of `partsupp.tbl` (first 5 columns). -/
structure PartsuppRow where
  ps_partkey : Int
  ps_suppkey : Int
  ps_availqty : String
  ps_supplycost : String
  ps_comment : String
deriving DecidableEq, Repr

/-- A row of `orders.tbl` (first 9 columns). -/
structure OrdersRow where
  o_orderkey : Int
  o_custkey : Int
  o_orderstatus : String
  o_totalprice : String
  o_orderdate : String
  o_orderpriority : String
  o_clerk : String
  o_shippriority : String
  o_comment : String
deriving DecidableEq, Repr

/-- A row of `lineitem.tbl` (first 16 columns). -/
structure LineitemRow where
  l_orderkey : Int
  l_partkey : Int
  l_suppkey : Int
  l_linenumber : Int
  l_quantity : String
  l_extendedprice : String
  l_discount : String
  l_tax : String
  l_returnflag : String
  l_linestatus : String
  l_shipdate : String
  l_commitdate : String
  l_receiptdate : String
  l_shipinstruct : String
  l_shipmode : String
  l_comment : String
deriving DecidableEq, Repr

/-! ## ArangoDB document builders (`src/arangodb/load.py`)

Each `aload_*` method builds one vertex document per row (and edge
documents per foreign key), then issues `insert_many` calls.  An edge
document's `_from`/`_to` references are built by f-strings of the shape
`f"collection/{key}"`; they are modelled structurally as
(collection, key) pairs together with the rendering function `ref`. -/

/-- A vertex document: the `_key` field plus the remaining fields. -/
structure ADoc where
  key : String
  attrs : Attrs
deriving DecidableEq, Repr

/-- An edge document: `_from`/`_to` endpoint references (collection and
key, rendered as `"collection/key"`) plus copied attributes. -/
structure AEdgeDoc where
  fromColl : String
  fromKey : String
  toColl : String
  toKey : String
  attrs : Attrs
deriving DecidableEq, Repr

/-- Render an endpoint reference the way the source f-string does. -/
def refStr (coll key : String) : String := coll ++ "/" ++ key

def AEdgeDoc.fromRef (e : AEdgeDoc) : String := refStr e.fromColl e.fromKey

def AEdgeDoc.toRef (e : AEdgeDoc) : String := refStr e.toColl e.toKey

/-- `aload_region` document: `_key = str(row["r_regionkey"])`. -/
def regionDoc (r : RegionRow) : ADoc :=
  { key := toString r.r_regionkey
    attrs := [("r_regionkey", .i r.r_regionkey), ("r_name", .s r.r_name),
              ("r_comment", .s r.r_comment)] }

/-- `aload_nation` vertex document (the region key lives only on the edge). -/
def nationDoc (r : NationRow) : ADoc :=
  { key := toString r.n_nationkey
    attrs := [("n_nationkey", .i r.n_nationkey), ("n_name", .s r.n_name),
              ("n_comment", .s r.n_comment)] }

/-- `aload_nation` edge document: `_from = f"nation/{n_nationkey}"`,
`_to = f"region/{n_regionkey}"`. -/
def nationRegionEdge (r : NationRow) : AEdgeDoc :=
  { fromColl := "nation", fromKey := toString r.n_nationkey
    toColl := "region", toKey := toString r.n_regionkey
    attrs := [("n_regionkey", .i r.n_regionkey)] }

/-- `aload_supplier` vertex document. -/
def supplierDoc (r : SupplierRow) : ADoc :=
  { key := toString r.s_suppkey
    attrs := [("s_suppkey", .i r.s_suppkey), ("s_name", .s r.s_name),
              ("s_address", .s r.s_address), ("s_phone", .s r.s_phone),
              ("s_acctbal", .s r.s_acctbal), ("s_comment", .s r.s_comment)] }

/-- `aload_supplier` edge document (supplier → nation). -/
def supplierNationEdge (r : SupplierRow) : AEdgeDoc :=
  { fromColl := "supplier", fromKey := toString r.s_suppkey
    toColl := "nation", toKey := toString r.s_nationkey
    attrs := [("s_nationkey", .i r.s_nationkey)] }

/-- `aload_customer` vertex document. -/
def customerDoc (r : CustomerRow) : ADoc :=
  { key := toString r.c_custkey
    attrs := [("c_custkey", .i r.c_custkey), ("c_name", .s r.c_name),
              ("c_address", .s r.c_address), ("c_phone", .s r.c_phone),
              ("c_acctbal", .s r.c_acctbal), ("c_mktsegment", .s r.c_mktsegment),
              ("c_comment", .s r.c_comment)] }

/-- `aload_customer` edge document (customer → nation). -/
def customerNationEdge (r : CustomerRow) : AEdgeDoc :=
  { fromColl := "customer", fromKey := toString r.c_custkey
    toColl := "nation", toKey := toString r.c_nationkey
    attrs := [("c_nationkey", .i r.c_nationkey)] }

/-- `aload_part` vertex document. -/
def partDoc (r : PartRow) : ADoc :=
  { key := toString r.p_partkey
    attrs := [("p_partkey", .i r.p_partkey), ("p_name", .s r.p_name),
              ("p_mfgr", .s r.p_mfgr), ("p_brand", .s r.p_brand),
              ("p_type", .s r.p_type), ("p_size", .s r.p_size),
              ("p_container", .s r.p_container),
              ("p_retailprice", .s r.p_retailprice),
              ("p_comment", .s r.p_comment)] }

/-- `aload_partsupp` composite key: `f"{ps_partkey}_{ps_suppkey}"`. -/
def partsuppKey (r : PartsuppRow) : String :=
  s!"{r.ps_partkey}_{r.ps_suppkey}"

/-- `aload_partsupp` vertex document. -/
def partsuppDoc (r : PartsuppRow) : ADoc :=
  { key := partsuppKey r
    attrs := [("ps_partkey", .i r.ps_partkey), ("ps_suppkey", .i r.ps_suppkey),
              ("ps_availqty", .s r.ps_availqty),
              ("ps_supplycost", .s r.ps_supplycost),
              ("ps_comment", .s r.ps_comment)] }

/-- `aload_partsupp` edge document (partsupp → part). -/
def partsuppPartEdge (r : PartsuppRow) : AEdgeDoc :=
  { fromColl := "partsupp", fromKey := partsuppKey r
    toColl := "part", toKey := toString r.ps_partkey
    attrs := [("ps_partkey", .i r.ps_partkey)] }

/-- `aload_partsupp` edge document (partsupp → supplier). -/
def partsuppSupplierEdge (r : PartsuppRow) : AEdgeDoc :=
  { fromColl := "partsupp", fromKey := partsuppKey r
    toColl := "supplier", toKey := toString r.ps_suppkey
    attrs := [("ps_suppkey", .i r.ps_suppkey)] }

/-- `aload_orders` vertex document (the customer key lives only on the edge). -/
def ordersDoc (r : OrdersRow) : ADoc :=
  { key := toString r.o_orderkey
    attrs := [("o_orderkey", .i r.o_orderkey),
              ("o_orderstatus", .s r.o_orderstatus),
              ("o_totalprice", .s r.o_totalprice),
              ("o_orderdate", .s r.o_orderdate),
              ("o_orderpriority", .s r.o_orderpriority),
              ("o_clerk", .s r.o_clerk),
              ("o_shippriority", .s r.o_shippriority),
              ("o_comment", .s r.o_comment)] }

/-- `aload_orders` edge document (customer → orders). -/
def customerOrdersEdge (r : OrdersRow) : AEdgeDoc :=
  { fromColl := "customer", fromKey := toString r.o_custkey
    toColl := "orders", toKey := toString r.o_orderkey
    attrs := [("o_custkey", .i r.o_custkey)] }

/-- `aload_lineitem` composite key: `f"{l_orderkey}_{l_linenumber}"`. -/
def lineitemKey (r : LineitemRow) : String :=
  s!"{r.l_orderkey}_{r.l_linenumber}"

/-- `aload_lineitem` vertex document. -/
def lineitemDoc (r : LineitemRow) : ADoc :=
  { key := lineitemKey r
    attrs := [("l_orderkey", .i r.l_orderkey), ("l_partkey", .i r.l_partkey),
              ("l_suppkey", .i r.l_suppkey), ("l_linenumber", .i r.l_linenumber),
              ("l_quantity", .s r.l_quantity),
              ("l_extendedprice", .s r.l_extendedprice),
              ("l_discount", .s r.l_discount), ("l_tax", .s r.l_tax),
              ("l_returnflag", .s r.l_returnflag),
              ("l_linestatus", .s r.l_linestatus),
              ("l_shipdate", .s r.l_shipdate),
              ("l_commitdate", .s r.l_commitdate),
              ("l_receiptdate", .s r.l_receiptdate),
              ("l_shipinstruct", .s r.l_shipinstruct),
              ("l_shipmode", .s r.l_shipmode),
              ("l_comment", .s r.l_comment)] }

/-- `aload_lineitem` edge document (orders → lineitem). -/
def orderLineitemEdge (r : LineitemRow) : AEdgeDoc :=
  { fromColl := "orders", fromKey := toString r.l_orderkey
    toColl := "lineitem", toKey := lineitemKey r
    attrs := [("l_orderkey", .i r.l_orderkey)] }

/-- `aload_lineitem` edge document (lineitem → part). -/
def lineitemPartEdge (r : LineitemRow) : AEdgeDoc :=
  { fromColl := "lineitem", fromKey := lineitemKey r
    toColl := "part", toKey := toString r.l_partkey
    attrs := [("l_partkey", .i r.l_partkey)] }

/-- `aload_lineitem` edge document (lineitem → supplier). -/
def lineitemSupplierEdge (r : LineitemRow) : AEdgeDoc :=
  { fromColl := "lineitem", fromKey := lineitemKey r
    toColl := "supplier", toKey := toString r.l_suppkey
    attrs := [("l_suppkey", .i r.l_suppkey)] }

/-! ## ArangoDB write-call traces

Each `aload_*` method issues a sequence of `insert_many(collection, docs)`
calls; the trace records, in issue order, the target collection and the
document payload. -/

/-- The payload of one `insert_many` call. -/
inductive Payload where
  | vtx (ds : List ADoc)
  | edg (es : List AEdgeDoc)
deriving DecidableEq, Repr

/-- The number of records in a payload. -/
def Payload.size : Payload → Nat
  | .vtx ds => ds.length
  | .edg es => es.length

/-- One `insert_many` call: target collection and payload. -/
structure WCall where
  coll : String
  payload : Payload
deriving DecidableEq, Repr

/-- `ArangoTPCH.aload_region`: one `insert_many` into `region`. -/
def aload_region (rows : List RegionRow) : List WCall :=
  [⟨"region", .vtx (rows.map regionDoc)⟩]

/-- `ArangoTPCH.aload_nation`: one `insert_many` into `nation`, then one
into `nation_region`. -/
def aload_nation (rows : List NationRow) : List WCall :=
  [⟨"nation", .vtx (rows.map nationDoc)⟩,
   ⟨"nation_region", .edg (rows.map nationRegionEdge)⟩]

/-- `ArangoTPCH.aload_supplier`: one `insert_many` into `supplier`, then
one into `supplier_nation`. -/
def aload_supplier (rows : List SupplierRow) : List WCall :=
  [⟨"supplier", .vtx (rows.map supplierDoc)⟩,
   ⟨"supplier_nation", .edg (rows.map supplierNationEdge)⟩]

/-- `ArangoTPCH.aload_customer`: one `insert_many` into `customer`, then
one into `customer_nation`. -/
def aload_customer (rows : List CustomerRow) : List WCall :=
  [⟨"customer", .vtx (rows.map customerDoc)⟩,
   ⟨"customer_nation", .edg (rows.map customerNationEdge)⟩]

/-- `ArangoTPCH.aload_part`: one `insert_many` into `part`. -/
def aload_part (rows : List PartRow) : List WCall :=
  [⟨"part", .vtx (rows.map partDoc)⟩]

/-- `ArangoTPCH.aload_partsupp`: one `insert_many` into each of
`partsupp`, `partsupp_part`, `partsupp_supplier`. -/
def aload_partsupp (rows : List PartsuppRow) : List WCall :=
  [⟨"partsupp", .vtx (rows.map partsuppDoc)⟩,
   ⟨"partsupp_part", .edg (rows.map partsuppPartEdge)⟩,
   ⟨"partsupp_supplier", .edg (rows.map partsuppSupplierEdge)⟩]

/-- `ArangoTPCH.aload_orders`: one `insert_many` into `orders`, then one
into `customer_orders`. -/
def aload_orders (rows : List OrdersRow) : List WCall :=
  [⟨"orders", .vtx (rows.map ordersDoc)⟩,
   ⟨"customer_orders", .edg (rows.map customerOrdersEdge)⟩]

/-- `ArangoTPCH.aload_lineitem`: for each batch of 1000 rows, one
`insert_many` into each of `lineitem`, `order_lineitems`,
`lineitem_part`, `lineitem_supplier`, in that order. -/
def aload_lineitem (rows : List LineitemRow) : List WCall :=
  (arangoLineitemChunks 1000 rows).flatMap fun b =>
    [⟨"lineitem", .vtx (b.map lineitemDoc)⟩,
     ⟨"order_lineitems", .edg (b.map orderLineitemEdge)⟩,
     ⟨"lineitem_part", .edg (b.map lineitemPartEdge)⟩,
     ⟨"lineitem_supplier", .edg (b.map lineitemSupplierEdge)⟩]

/-- The full TPC-H dataset: the parsed rows of the eight source tables. -/
structure Dataset where
  region : List RegionRow
  nation : List NationRow
  supplier : List SupplierRow
  customer : List CustomerRow
  part : List PartRow
  partsupp : List PartsuppRow
  orders : List OrdersRow
  lineitem : List LineitemRow

/-- `ArangoTPCH.aload`: the per-table load steps in the order the source
calls them, each with its write-call trace. -/
def arangoSteps (d : Dataset) : List (String × List WCall) :=
  [("region", aload_region d.region),
   ("nation", aload_nation d.nation),
   ("supplier", aload_supplier d.supplier),
   ("customer", aload_customer d.customer),
   ("part", aload_part d.part),
   ("partsupp", aload_partsupp d.partsupp),
   ("orders", aload_orders d.orders),
   ("lineitem", aload_lineitem d.lineitem)]

/-- The table order in which `ArangoTPCH.aload` runs its steps. -/
def arangoLoadOrder (d : Dataset) : List String :=
  (arangoSteps d).map (·.1)

/-- All edge documents issued by one step's write calls. -/
def stepEdgeDocs (calls : List WCall) : List AEdgeDoc :=
  calls.flatMap fun c =>
    match c.payload with
    | .vtx _ => []
    | .edg es => es

/-! ## Memgraph rows (`src/memgraph/load.py`)

The Memgraph loader renames the columns without the table prefix
(`regionkey`, `name`, ...). -/

/-- A `region.tbl` row as the Memgraph loader names it. -/
structure MRegionRow where
  regionkey : Int
  name : String
  comment : String
deriving DecidableEq, Repr

/-- A `nation.tbl` row as the Memgraph loader names it. -/
structure MNationRow where
  nationkey : Int
  name : String
  regionkey : Int
  comment : String
deriving DecidableEq, Repr

/-- A `supplier.tbl` row as the Memgraph loader names it. -/
structure MSupplierRow where
  suppkey : Int
  name : String
  address : String
  nationkey : Int
  phone : String
  acctbal : String
  comment : String
deriving DecidableEq, Repr

/-- A `customer.tbl` row as the Memgraph loader names it. -/
structure MCustomerRow where
  custkey : Int
  name : String
  address : String
  nationkey : Int
  phone : String
  acctbal : String
  mktsegment : String
  comment : String
deriving DecidableEq, Repr

/-- A `part.tbl` row as the Memgraph loader names it. -/
structure MPartRow where
  partkey : Int
  name : String
  mfgr : String
  brand : String
  type : String
  size : String
  container : String
  retailprice : String
  comment : String
deriving DecidableEq, Repr

/-- A `partsupp.tbl` row as the Memgraph loader names it. -/
structure MPartsuppRow where
  partkey : Int
  suppkey : Int
  availqty : String
  supplycost : String
  comment : String
deriving DecidableEq, Repr

/-- An `orders.tbl` row as the Memgraph loader names it. -/
structure MOrdersRow where
  orderkey : Int
  custkey : Int
  orderstatus : String
  totalprice : String
  orderdate : String
  orderpriority : String
  clerk : String
  shippriority : String
  comment : String
deriving DecidableEq, Repr

/-- A `lineitem.tbl` row as the Memgraph loader names it. -/
structure MLineitemRow where
  orderkey : Int
  partkey : Int
  suppkey : Int
  linenumber : Int
  quantity : String
  extendedprice : String
  discount : String
  tax : String
  returnflag : String
  linestatus : String
  shipdate : String
  commitdate : String
  receiptdate : String
  shipinstruct : String
  shipmode : String
  comment : String
deriving DecidableEq, Repr

/-! ## Memgraph property-graph semantics

The Cypher query templates are embedded as explicit state transformers on
a property graph.  A node is a label plus a property map; a relationship
records its type, the match patterns identifying its two endpoints, and
its own properties (endpoints are identified by their match patterns,
which is adequate here because all claims concern node counts, labels and
relationship directions). -/

/-- A property lookup in a property map (first binding wins). -/
def getProp : Attrs → String → Option Val
  | [], _ => none
  | p :: ps, k => if p.1 = k then some p.2 else getProp ps k

/-- Cypher `SET x.k = v`: overwrite the property everywhere it occurs, or
append it when absent. -/
def setProp (a : Attrs) (k : String) (v : Val) : Attrs :=
  if ∃ p ∈ a, p.1 = k then
    a.map fun p => if p.1 = k then (k, v) else p
  else a ++ [(k, v)]

/-- Apply a list of `SET` updates in order. -/
def setProps (a : Attrs) (upd : Attrs) : Attrs :=
  upd.foldl (fun acc p => setProp acc p.1 p.2) a

/-- A node of the property graph. -/
structure MNode where
  label : String
  props : Attrs
deriving DecidableEq, Repr

/-- A relationship of the property graph, with its endpoints identified by
the label and match pattern that bound them. -/
structure MRel where
  rtype : String
  srcLabel : String
  srcPat : Attrs
  dstLabel : String
  dstPat : Attrs
  props : Attrs
deriving DecidableEq, Repr

/-- The property-graph state. -/
structure MGraph where
  nodes : List MNode
  rels : List MRel
deriving DecidableEq, Repr

/-- The empty store (after `MATCH (n) DETACH DELETE n`). -/
def emptyGraph : MGraph := ⟨[], []⟩

/-- Does a node match a Cypher pattern `(:lab {pat})`? -/
def nodeMatches (n : MNode) (lab : String) (pat : Attrs) : Prop :=
  n.label = lab ∧ ∀ p ∈ pat, getProp n.props p.1 = some p.2

instance (n : MNode) (lab : String) (pat : Attrs) :
    Decidable (nodeMatches n lab pat) := by
  unfold nodeMatches
  infer_instance

/-- Does any node of the graph match the pattern? -/
def hasMatch (g : MGraph) (lab : String) (pat : Attrs) : Prop :=
  ∃ n ∈ g.nodes, nodeMatches n lab pat

instance (g : MGraph) (lab : String) (pat : Attrs) :
    Decidable (hasMatch g lab pat) := by
  unfold hasMatch
  infer_instance

/-- How many nodes match the pattern (Cypher `MATCH` produces one binding
per matching node). -/
def countMatches (g : MGraph) (lab : String) (pat : Attrs) : Nat :=
  g.nodes.countP fun n => decide (nodeMatches n lab pat)

/-- Cypher `MERGE (x:lab {pat}) SET x.… = upd`: when nodes match the
pattern, `SET` applies to every binding; otherwise one node is created
carrying the pattern properties, and `SET` then applies to it. -/
def mergeNode (g : MGraph) (lab : String) (pat : Attrs) (upd : Attrs) : MGraph :=
  if hasMatch g lab pat then
    { g with nodes := g.nodes.map fun n =>
        if nodeMatches n lab pat then { n with props := setProps n.props upd } else n }
  else
    { g with nodes := g.nodes ++ [{ label := lab, props := setProps pat upd }] }

/-- Do two relationships coincide as Cypher `MERGE` patterns (same type and
same endpoint bindings)? -/
def sameRelPattern (x e : MRel) : Prop :=
  x.rtype = e.rtype ∧ x.srcLabel = e.srcLabel ∧ x.srcPat = e.srcPat ∧
    x.dstLabel = e.dstLabel ∧ x.dstPat = e.dstPat

instance (x e : MRel) : Decidable (sameRelPattern x e) := by
  unfold sameRelPattern
  infer_instance

/-- Cypher `MERGE (a)-[:T]->(b)` between already-matched endpoints,
followed by an optional `SET` on the relationship (`e.props`): update the
properties of every existing relationship with the same pattern, or create
the relationship. -/
def mergeRel (g : MGraph) (e : MRel) : MGraph :=
  if ∃ x ∈ g.rels, sameRelPattern x e then
    { g with rels := g.rels.map fun x =>
        if sameRelPattern x e then { x with props := setProps x.props e.props } else x }
  else { g with rels := g.rels ++ [e] }

/-! ## Memgraph per-table queries

One definition per `UNWIND $rows AS row …` query template; `batch_load`
executes the template once per 1000-row chunk, and within a chunk `UNWIND`
processes the rows in order, so a whole table load is the left fold of the
per-row effect over the row list. -/

/-- `aload_region` row effect:
`MERGE (r:Region {regionkey: row.regionkey}) SET r.name, r.comment`. -/
def regionRowStep (g : MGraph) (r : MRegionRow) : MGraph :=
  mergeNode g "Region" [("regionkey", .i r.regionkey)]
    [("name", .s r.name), ("comment", .s r.comment)]

/-- `aload_nation` row effect: merge the nation node, then
`MATCH (r:Region {regionkey: row.regionkey}) MERGE (n)-[:BELONGS_TO]->(r)`
(the row produces no relationship when the region is absent — `MATCH`
drops the binding). -/
def nationRowStep (g : MGraph) (r : MNationRow) : MGraph :=
  let g1 := mergeNode g "Nation" [("nationkey", .i r.nationkey)]
    [("name", .s r.name), ("comment", .s r.comment)]
  if hasMatch g1 "Region" [("regionkey", .i r.regionkey)] then
    mergeRel g1 { rtype := "BELONGS_TO"
                  srcLabel := "Nation", srcPat := [("nationkey", .i r.nationkey)]
                  dstLabel := "Region", dstPat := [("regionkey", .i r.regionkey)]
                  props := [] }
  else g1

/-- `aload_supplier` row effect: merge the supplier node, then match the
nation and merge `(s)-[:LOCATED_IN]->(n)`. -/
def supplierRowStep (g : MGraph) (r : MSupplierRow) : MGraph :=
  let g1 := mergeNode g "Supplier" [("suppkey", .i r.suppkey)]
    [("name", .s r.name), ("address", .s r.address), ("phone", .s r.phone),
     ("acctbal", .s r.acctbal), ("comment", .s r.comment)]
  if hasMatch g1 "Nation" [("nationkey", .i r.nationkey)] then
    mergeRel g1 { rtype := "LOCATED_IN"
                  srcLabel := "Supplier", srcPat := [("suppkey", .i r.suppkey)]
                  dstLabel := "Nation", dstPat := [("nationkey", .i r.nationkey)]
                  props := [] }
  else g1

/-- `aload_customer` row effect: merge the customer node, then match the
nation and merge `(c)-[:LOCATED_IN]->(n)`. -/
def customerRowStep (g : MGraph) (r : MCustomerRow) : MGraph :=
  let g1 := mergeNode g "Customer" [("custkey", .i r.custkey)]
    [("name", .s r.name), ("address", .s r.address), ("phone", .s r.phone),
     ("acctbal", .s r.acctbal), ("mktsegment", .s r.mktsegment),
     ("comment", .s r.comment)]
  if hasMatch g1 "Nation" [("nationkey", .i r.nationkey)] then
    mergeRel g1 { rtype := "LOCATED_IN"
                  srcLabel := "Customer", srcPat := [("custkey", .i r.custkey)]
                  dstLabel := "Nation", dstPat := [("nationkey", .i r.nationkey)]
                  props := [] }
  else g1

/-- `aload_part` row effect: merge the part node and set its attributes. -/
def partRowStep (g : MGraph) (r : MPartRow) : MGraph :=
  mergeNode g "Part" [("partkey", .i r.partkey)]
    [("name", .s r.name), ("mfgr", .s r.mfgr), ("brand", .s r.brand),
     ("type", .s r.type), ("size", .s r.size), ("container", .s r.container),
     ("retailprice", .s r.retailprice), ("comment", .s r.comment)]

/-- `aload_partsupp` row effect:
`MATCH (p:Part {partkey}) MATCH (s:Supplier {suppkey})
MERGE (s)-[ps:SUPPLIES]->(p) SET ps.availqty, ps.supplycost, ps.comment`.
No node is merged or created; when either endpoint is absent the row has
no effect. -/
def partsuppRowStep (g : MGraph) (r : MPartsuppRow) : MGraph :=
  if hasMatch g "Part" [("partkey", .i r.partkey)] ∧
      hasMatch g "Supplier" [("suppkey", .i r.suppkey)] then
    mergeRel g { rtype := "SUPPLIES"
                 srcLabel := "Supplier", srcPat := [("suppkey", .i r.suppkey)]
                 dstLabel := "Part", dstPat := [("partkey", .i r.partkey)]
                 props := [("availqty", .s r.availqty),
                           ("supplycost", .s r.supplycost),
                           ("comment", .s r.comment)] }
  else g

/-- `aload_orders` row effect: merge the order node, then match the
customer and merge `(c)-[:PLACED]->(o)`. -/
def ordersRowStep (g : MGraph) (r : MOrdersRow) : MGraph :=
  let g1 := mergeNode g "Order" [("orderkey", .i r.orderkey)]
    [("orderstatus", .s r.orderstatus), ("totalprice", .s r.totalprice),
     ("orderdate", .s r.orderdate), ("orderpriority", .s r.orderpriority),
     ("clerk", .s r.clerk), ("shippriority", .s r.shippriority),
     ("comment", .s r.comment)]
  if hasMatch g1 "Customer" [("custkey", .i r.custkey)] then
    mergeRel g1 { rtype := "PLACED"
                  srcLabel := "Customer", srcPat := [("custkey", .i r.custkey)]
                  dstLabel := "Order", dstPat := [("orderkey", .i r.orderkey)]
                  props := [] }
  else g1

/-- The property map of a created `LineItem` node (all sixteen columns). -/
def lineitemProps (r : MLineitemRow) : Attrs :=
  [("orderkey", .i r.orderkey), ("partkey", .i r.partkey),
   ("suppkey", .i r.suppkey), ("linenumber", .i r.linenumber),
   ("quantity", .s r.quantity), ("extendedprice", .s r.extendedprice),
   ("discount", .s r.discount), ("tax", .s r.tax),
   ("returnflag", .s r.returnflag), ("linestatus", .s r.linestatus),
   ("shipdate", .s r.shipdate), ("commitdate", .s r.commitdate),
   ("receiptdate", .s r.receiptdate), ("shipinstruct", .s r.shipinstruct),
   ("shipmode", .s r.shipmode), ("comment", .s r.comment)]

/-- The number of `MATCH` binding combinations for one lineitem row: the
three `MATCH` clauses produce one binding per matching Order, Part and
Supplier node. -/
def liBindings (g : MGraph) (r : MLineitemRow) : Nat :=
  countMatches g "Order" [("orderkey", .i r.orderkey)]
    * countMatches g "Part" [("partkey", .i r.partkey)]
    * countMatches g "Supplier" [("suppkey", .i r.suppkey)]

/-- `aload_lineitem` row effect:
`MATCH (o:Order {orderkey}) MATCH (p:Part {partkey})
MATCH (s:Supplier {suppkey}) CREATE (li:LineItem {…})
CREATE (o)-[:CONTAINS]->(li) CREATE (li)-[:OF_PART]->(p)
CREATE (li)-[:SUPPLIED_BY]->(s)`.
`CREATE` runs once per `MATCH` binding combination, creating nodes and
relationships unconditionally (no `MERGE`). -/
def lineitemRowStep (g : MGraph) (r : MLineitemRow) : MGraph :=
  let m := liBindings g r
  { nodes := g.nodes ++ List.replicate m ⟨"LineItem", lineitemProps r⟩
    rels := g.rels
      ++ List.replicate m
        { rtype := "CONTAINS"
          srcLabel := "Order", srcPat := [("orderkey", .i r.orderkey)]
          dstLabel := "LineItem", dstPat := lineitemProps r, props := [] }
      ++ List.replicate m
        { rtype := "OF_PART"
          srcLabel := "LineItem", srcPat := lineitemProps r
          dstLabel := "Part", dstPat := [("partkey", .i r.partkey)], props := [] }
      ++ List.replicate m
        { rtype := "SUPPLIED_BY"
          srcLabel := "LineItem", srcPat := lineitemProps r
          dstLabel := "Supplier", dstPat := [("suppkey", .i r.suppkey)]
          props := [] } }

/-- A whole-table load (all chunks of `batch_load` in order). -/
def mgLoadRegion (rows : List MRegionRow) (g : MGraph) : MGraph :=
  rows.foldl regionRowStep g

def mgLoadNation (rows : List MNationRow) (g : MGraph) : MGraph :=
  rows.foldl nationRowStep g

def mgLoadSupplier (rows : List MSupplierRow) (g : MGraph) : MGraph :=
  rows.foldl supplierRowStep g

def mgLoadCustomer (rows : List MCustomerRow) (g : MGraph) : MGraph :=
  rows.foldl customerRowStep g

def mgLoadPart (rows : List MPartRow) (g : MGraph) : MGraph :=
  rows.foldl partRowStep g

def mgLoadPartsupp (rows : List MPartsuppRow) (g : MGraph) : MGraph :=
  rows.foldl partsuppRowStep g

def mgLoadOrders (rows : List MOrdersRow) (g : MGraph) : MGraph :=
  rows.foldl ordersRowStep g

def mgLoadLineitem (rows : List MLineitemRow) (g : MGraph) : MGraph :=
  rows.foldl lineitemRowStep g

/-- The rows of the eight tables as the Memgraph loader reads them. -/
structure MDataset where
  region : List MRegionRow
  nation : List MNationRow
  supplier : List MSupplierRow
  customer : List MCustomerRow
  part : List MPartRow
  partsupp : List MPartsuppRow
  orders : List MOrdersRow
  lineitem : List MLineitemRow

/-- `MemgraphTPCH.aload`: the per-table load steps in the order the source
calls them. -/
def memgraphSteps (d : MDataset) : List (String × (MGraph → MGraph)) :=
  [("region", mgLoadRegion d.region),
   ("nation", mgLoadNation d.nation),
   ("supplier", mgLoadSupplier d.supplier),
   ("customer", mgLoadCustomer d.customer),
   ("part", mgLoadPart d.part),
   ("partsupp", mgLoadPartsupp d.partsupp),
   ("orders", mgLoadOrders d.orders),
   ("lineitem", mgLoadLineitem d.lineitem)]

/-- The table order in which `MemgraphTPCH.aload` runs its steps. -/
def memgraphLoadOrder (d : MDataset) : List String :=
  (memgraphSteps d).map (·.1)

/-- Running `MemgraphTPCH.aload`: apply the steps left to right. -/
def mgAload (d : MDataset) (g : MGraph) : MGraph :=
  (memgraphSteps d).foldl (fun g s => s.2 g) g

/-! ## Property-map and merge lemmas -/

theorem getProp_cons (p : String × Val) (ps : Attrs) (k : String) :
    getProp (p :: ps) k = if p.1 = k then some p.2 else getProp ps k := rfl

theorem getProp_map_set_ne (a : Attrs) (k k' : String) (v : Val) (h : k' ≠ k) :
    getProp (a.map fun p => if p.1 = k' then (k', v) else p) k = getProp a k := by
  induction a with
  | nil => rfl
  | cons p ps ih =>
    rw [List.map_cons]
    by_cases hp : p.1 = k'
    · rw [if_pos hp, getProp_cons, getProp_cons, ih]
      have hk : ¬ p.1 = k := by rw [hp]; exact h
      rw [if_neg h, if_neg hk]
    · rw [if_neg hp, getProp_cons, getProp_cons, ih]

theorem getProp_append_single_ne (a : Attrs) (k k' : String) (v : Val) (h : k' ≠ k) :
    getProp (a ++ [(k', v)]) k = getProp a k := by
  induction a with
  | nil =>
    rw [List.nil_append, getProp_cons, if_neg h]
  | cons p ps ih =>
    rw [List.cons_append, getProp_cons, getProp_cons, ih]

theorem getProp_setProp_ne (a : Attrs) (k k' : String) (v : Val) (h : k' ≠ k) :
    getProp (setProp a k' v) k = getProp a k := by
  unfold setProp
  split
  · exact getProp_map_set_ne a k k' v h
  · exact getProp_append_single_ne a k k' v h

theorem setProps_cons (a : Attrs) (q : String × Val) (t : Attrs) :
    setProps a (q :: t) = setProps (setProp a q.1 q.2) t := rfl

theorem getProp_setProps_of_ne (a upd : Attrs) (k : String)
    (h : ∀ q ∈ upd, q.1 ≠ k) :
    getProp (setProps a upd) k = getProp a k := by
  induction upd generalizing a with
  | nil => rfl
  | cons q t ih =>
    rw [setProps_cons, ih _ fun x hx => h x (List.mem_cons_of_mem q hx),
      getProp_setProp_ne _ _ _ _ (h q (List.mem_cons_self q t))]

theorem getProp_singleton (k : String) (v : Val) : getProp [(k, v)] k = some v := by
  rw [getProp_cons, if_pos rfl]

/-- A single-field pattern `{kf: v}` matches a node exactly when the label
agrees and the property holds the value. -/
theorem nodeMatches_singleton (n : MNode) (lab kf : String) (v : Val) :
    nodeMatches n lab [(kf, v)] ↔ n.label = lab ∧ getProp n.props kf = some v := by
  unfold nodeMatches
  simp

/-- `MERGE` adds a node exactly when nothing matched. -/
theorem mergeNode_length (g : MGraph) (lab : String) (pat upd : Attrs) :
    (mergeNode g lab pat upd).nodes.length =
      if hasMatch g lab pat then g.nodes.length else g.nodes.length + 1 := by
  unfold mergeNode
  split
  · exact List.length_map _ _
  · simp

/-- Relationship merging never touches the node set. -/
theorem mergeRel_nodes (g : MGraph) (e : MRel) : (mergeRel g e).nodes = g.nodes := by
  unfold mergeRel
  split <;> rfl

/-- `hasMatch` only reads the node list. -/
theorem hasMatch_congr (g g' : MGraph) (h : g.nodes = g'.nodes)
    (lab : String) (pat : Attrs) : hasMatch g lab pat ↔ hasMatch g' lab pat := by
  unfold hasMatch
  rw [h]

/-- A single-field match survives any `MERGE … SET` whose `SET` clause does
not write the matched field. -/
theorem hasMatch_mergeNode_preserve (g : MGraph) (lab kf : String) (v : Val)
    (lab' : String) (pat' upd' : Attrs) (hupd : ∀ q ∈ upd', q.1 ≠ kf)
    (h : hasMatch g lab [(kf, v)]) :
    hasMatch (mergeNode g lab' pat' upd') lab [(kf, v)] := by
  obtain ⟨n, hn, hm⟩ := h
  rw [nodeMatches_singleton] at hm
  unfold mergeNode
  split
  · refine ⟨_, List.mem_map_of_mem _ hn, ?_⟩
    rw [nodeMatches_singleton]
    split
    · exact ⟨hm.1, by rw [getProp_setProps_of_ne _ _ _ hupd]; exact hm.2⟩
    · exact hm
  · exact ⟨n, List.mem_append_left _ hn, (nodeMatches_singleton _ _ _ _).mpr hm⟩

/-- After `MERGE (x:lab {kf: v}) SET …` (with `SET` not writing `kf`), a
node matching `{kf: v}` exists. -/
theorem hasMatch_mergeNode_self (g : MGraph) (lab kf : String) (v : Val)
    (upd : Attrs) (hupd : ∀ q ∈ upd, q.1 ≠ kf) :
    hasMatch (mergeNode g lab [(kf, v)] upd) lab [(kf, v)] := by
  by_cases h : hasMatch g lab [(kf, v)]
  · exact hasMatch_mergeNode_preserve g lab kf v lab _ upd hupd h
  · unfold mergeNode
    rw [if_neg h]
    refine ⟨_, List.mem_append_right _ (List.mem_singleton_self _), ?_⟩
    rw [nodeMatches_singleton]
    exact ⟨rfl, by rw [getProp_setProps_of_ne _ _ _ hupd, getProp_singleton]⟩

/-! ## Idempotence of the upserting table loads

Six of the Memgraph table queries share one shape: merge the table's node
on its single key field, set the non-key attributes, and optionally merge
a relationship to an already-loaded parent.  `upsertStep` captures that
shape; each row-step definition above is definitionally an instance. -/

section UpsertLoad

variable {ρ : Type}

/-- The common shape of an upserting row step: `MERGE` the node on its key
field, `SET` the non-key attributes, then a postlude `post` that only
touches relationships. -/
def upsertStep (lab kf : String) (key : ρ → Int) (upd : ρ → Attrs)
    (post : MGraph → ρ → MGraph) (g : MGraph) (r : ρ) : MGraph :=
  post (mergeNode g lab [(kf, .i (key r))] (upd r)) r

variable (lab kf : String) (key : ρ → Int) (upd : ρ → Attrs)
variable (post : MGraph → ρ → MGraph)

theorem upsertStep_length (hpost : ∀ g r, (post g r).nodes = g.nodes)
    (g : MGraph) (r : ρ) :
    (upsertStep lab kf key upd post g r).nodes.length =
      if hasMatch g lab [(kf, .i (key r))] then g.nodes.length
      else g.nodes.length + 1 := by
  unfold upsertStep
  rw [congrArg List.length (hpost _ r), mergeNode_length]

theorem upsertStep_match_preserve (hupd : ∀ r : ρ, ∀ q ∈ upd r, q.1 ≠ kf)
    (hpost : ∀ g r, (post g r).nodes = g.nodes) (g : MGraph) (r : ρ) (v : Val)
    (h : hasMatch g lab [(kf, v)]) :
    hasMatch (upsertStep lab kf key upd post g r) lab [(kf, v)] := by
  unfold upsertStep
  rw [hasMatch_congr _ _ (hpost _ r)]
  exact hasMatch_mergeNode_preserve g lab kf v lab _ _ (hupd r) h

theorem upsertStep_match_self (hupd : ∀ r : ρ, ∀ q ∈ upd r, q.1 ≠ kf)
    (hpost : ∀ g r, (post g r).nodes = g.nodes) (g : MGraph) (r : ρ) :
    hasMatch (upsertStep lab kf key upd post g r) lab [(kf, .i (key r))] := by
  unfold upsertStep
  rw [hasMatch_congr _ _ (hpost _ r)]
  exact hasMatch_mergeNode_self g lab kf _ _ (hupd r)

theorem upsertLoad_match_mono (hupd : ∀ r : ρ, ∀ q ∈ upd r, q.1 ≠ kf)
    (hpost : ∀ g r, (post g r).nodes = g.nodes)
    (rows : List ρ) (g : MGraph) (v : Val)
    (h : hasMatch g lab [(kf, v)]) :
    hasMatch (rows.foldl (upsertStep lab kf key upd post) g) lab [(kf, v)] := by
  induction rows generalizing g with
  | nil => exact h
  | cons r t ih =>
    exact ih _ (upsertStep_match_preserve lab kf key upd post hupd hpost g r v h)

/-- After one load, every row's key pattern has a matching node. -/
theorem upsertLoad_establishes (hupd : ∀ r : ρ, ∀ q ∈ upd r, q.1 ≠ kf)
    (hpost : ∀ g r, (post g r).nodes = g.nodes) (rows : List ρ) (g : MGraph) :
    ∀ r ∈ rows,
      hasMatch (rows.foldl (upsertStep lab kf key upd post) g) lab
        [(kf, .i (key r))] := by
  induction rows generalizing g with
  | nil => intro r hr; cases hr
  | cons r t ih =>
    intro r' hr'
    rcases List.mem_cons.mp hr' with rfl | hr'
    · exact upsertLoad_match_mono lab kf key upd post hupd hpost t _ _
        (upsertStep_match_self lab kf key upd post hupd hpost g r')
    · exact ih _ r' hr'

/-- When every row's key already matches, a load adds no node. -/
theorem upsertLoad_length_of_matched (hupd : ∀ r : ρ, ∀ q ∈ upd r, q.1 ≠ kf)
    (hpost : ∀ g r, (post g r).nodes = g.nodes) (rows : List ρ) (g : MGraph)
    (hall : ∀ r ∈ rows, hasMatch g lab [(kf, .i (key r))]) :
    (rows.foldl (upsertStep lab kf key upd post) g).nodes.length =
      g.nodes.length := by
  induction rows generalizing g with
  | nil => rfl
  | cons r t ih =>
    rw [List.foldl_cons,
      ih _ fun r' hr' =>
        upsertStep_match_preserve lab kf key upd post hupd hpost g r _
          (hall r' (List.mem_cons_of_mem r hr')),
      upsertStep_length lab kf key upd post hpost _ _,
      if_pos (hall r (List.mem_cons_self r t))]

/-- Re-running an upserting load any number of times leaves the node count
of a single run unchanged. -/
theorem upsertLoad_iterate_length (hupd : ∀ r : ρ, ∀ q ∈ upd r, q.1 ≠ kf)
    (hpost : ∀ g r, (post g r).nodes = g.nodes)
    (rows : List ρ) (g : MGraph) (k : Nat) :
    ((fun g => rows.foldl (upsertStep lab kf key upd post) g)^[k + 1] g).nodes.length
      = (rows.foldl (upsertStep lab kf key upd post) g).nodes.length := by
  induction k with
  | zero => rfl
  | succ j ih =>
    rw [Function.iterate_succ_apply', Function.iterate_succ_apply']
    rw [Function.iterate_succ_apply'] at ih
    rw [upsertLoad_length_of_matched lab kf key upd post hupd hpost rows _
      (upsertLoad_establishes lab kf key upd post hupd hpost rows _)]
    exact ih

end UpsertLoad

/-! ### The six upserting loads are idempotent in node count -/

theorem forall_mem_pairs_fst_ne (kf : String) (l : List (String × Val))
    (h : ∀ s ∈ l.map Prod.fst, s ≠ kf) : ∀ q ∈ l, q.1 ≠ kf :=
  fun q hq => h q.1 (List.mem_map_of_mem _ hq)

theorem mgLoadRegion_iterate (rows : List MRegionRow) (g : MGraph) (k : Nat) :
    ((mgLoadRegion rows)^[k + 1] g).nodes.length
      = (mgLoadRegion rows g).nodes.length :=
  @upsertLoad_iterate_length MRegionRow "Region" "regionkey" (fun r => r.regionkey)
    (fun r => [("name", .s r.name), ("comment", .s r.comment)])
    (fun g _ => g)
    (fun _ => forall_mem_pairs_fst_ne _ _ (by simp))
    (fun _ _ => rfl) rows g k

theorem mgLoadNation_iterate (rows : List MNationRow) (g : MGraph) (k : Nat) :
    ((mgLoadNation rows)^[k + 1] g).nodes.length
      = (mgLoadNation rows g).nodes.length :=
  @upsertLoad_iterate_length MNationRow "Nation" "nationkey" (fun r => r.nationkey)
    (fun r => [("name", .s r.name), ("comment", .s r.comment)])
    (fun g1 r =>
      if hasMatch g1 "Region" [("regionkey", .i r.regionkey)] then
        mergeRel g1 { rtype := "BELONGS_TO"
                      srcLabel := "Nation", srcPat := [("nationkey", .i r.nationkey)]
                      dstLabel := "Region", dstPat := [("regionkey", .i r.regionkey)]
                      props := [] }
      else g1)
    (fun _ => forall_mem_pairs_fst_ne _ _ (by simp))
    (by intro g r; dsimp only; split; exacts [mergeRel_nodes _ _, rfl]) rows g k

theorem mgLoadSupplier_iterate (rows : List MSupplierRow) (g : MGraph) (k : Nat) :
    ((mgLoadSupplier rows)^[k + 1] g).nodes.length
      = (mgLoadSupplier rows g).nodes.length :=
  @upsertLoad_iterate_length MSupplierRow "Supplier" "suppkey" (fun r => r.suppkey)
    (fun r => [("name", .s r.name), ("address", .s r.address),
               ("phone", .s r.phone), ("acctbal", .s r.acctbal),
               ("comment", .s r.comment)])
    (fun g1 r =>
      if hasMatch g1 "Nation" [("nationkey", .i r.nationkey)] then
        mergeRel g1 { rtype := "LOCATED_IN"
                      srcLabel := "Supplier", srcPat := [("suppkey", .i r.suppkey)]
                      dstLabel := "Nation", dstPat := [("nationkey", .i r.nationkey)]
                      props := [] }
      else g1)
    (fun _ => forall_mem_pairs_fst_ne _ _ (by simp))
    (by intro g r; dsimp only; split; exacts [mergeRel_nodes _ _, rfl]) rows g k

theorem mgLoadCustomer_iterate (rows : List MCustomerRow) (g : MGraph) (k : Nat) :
    ((mgLoadCustomer rows)^[k + 1] g).nodes.length
      = (mgLoadCustomer rows g).nodes.length :=
  @upsertLoad_iterate_length MCustomerRow "Customer" "custkey" (fun r => r.custkey)
    (fun r => [("name", .s r.name), ("address", .s r.address),
               ("phone", .s r.phone), ("acctbal", .s r.acctbal),
               ("mktsegment", .s r.mktsegment), ("comment", .s r.comment)])
    (fun g1 r =>
      if hasMatch g1 "Nation" [("nationkey", .i r.nationkey)] then
        mergeRel g1 { rtype := "LOCATED_IN"
                      srcLabel := "Customer", srcPat := [("custkey", .i r.custkey)]
                      dstLabel := "Nation", dstPat := [("nationkey", .i r.nationkey)]
                      props := [] }
      else g1)
    (fun _ => forall_mem_pairs_fst_ne _ _ (by simp))
    (by intro g r; dsimp only; split; exacts [mergeRel_nodes _ _, rfl]) rows g k

theorem mgLoadPart_iterate (rows : List MPartRow) (g : MGraph) (k : Nat) :
    ((mgLoadPart rows)^[k + 1] g).nodes.length
      = (mgLoadPart rows g).nodes.length :=
  @upsertLoad_iterate_length MPartRow "Part" "partkey" (fun r => r.partkey)
    (fun r => [("name", .s r.name), ("mfgr", .s r.mfgr), ("brand", .s r.brand),
               ("type", .s r.type), ("size", .s r.size),
               ("container", .s r.container),
               ("retailprice", .s r.retailprice), ("comment", .s r.comment)])
    (fun g _ => g)
    (fun _ => forall_mem_pairs_fst_ne _ _ (by simp))
    (fun _ _ => rfl) rows g k

theorem mgLoadOrders_iterate (rows : List MOrdersRow) (g : MGraph) (k : Nat) :
    ((mgLoadOrders rows)^[k + 1] g).nodes.length
      = (mgLoadOrders rows g).nodes.length :=
  @upsertLoad_iterate_length MOrdersRow "Order" "orderkey" (fun r => r.orderkey)
    (fun r => [("orderstatus", .s r.orderstatus), ("totalprice", .s r.totalprice),
               ("orderdate", .s r.orderdate),
               ("orderpriority", .s r.orderpriority), ("clerk", .s r.clerk),
               ("shippriority", .s r.shippriority), ("comment", .s r.comment)])
    (fun g1 r =>
      if hasMatch g1 "Customer" [("custkey", .i r.custkey)] then
        mergeRel g1 { rtype := "PLACED"
                      srcLabel := "Customer", srcPat := [("custkey", .i r.custkey)]
                      dstLabel := "Order", dstPat := [("orderkey", .i r.orderkey)]
                      props := [] }
      else g1)
    (fun _ => forall_mem_pairs_fst_ne _ _ (by simp))
    (by intro g r; dsimp only; split; exacts [mergeRel_nodes _ _, rfl]) rows g k

/-- The partsupp load never touches the node set. -/
theorem partsuppRowStep_nodes (g : MGraph) (r : MPartsuppRow) :
    (partsuppRowStep g r).nodes = g.nodes := by
  unfold partsuppRowStep
  split
  · exact mergeRel_nodes _ _
  · rfl

theorem mgLoadPartsupp_nodes (rows : List MPartsuppRow) (g : MGraph) :
    (mgLoadPartsupp rows g).nodes = g.nodes := by
  induction rows generalizing g with
  | nil => rfl
  | cons r t ih =>
    show (mgLoadPartsupp t (partsuppRowStep g r)).nodes = g.nodes
    rw [ih, partsuppRowStep_nodes]

theorem mgLoadPartsupp_iterate (rows : List MPartsuppRow) (g : MGraph) (k : Nat) :
    ((mgLoadPartsupp rows)^[k + 1] g).nodes.length
      = (mgLoadPartsupp rows g).nodes.length := by
  induction k with
  | zero => rfl
  | succ j ih =>
    rw [Function.iterate_succ_apply', mgLoadPartsupp_nodes]
    exact ih

/-! ### The lineitem load creates nodes unconditionally -/

/-- The number of nodes carrying a label. -/
def labelCount (g : MGraph) (lab : String) : Nat :=
  g.nodes.countP fun n => n.label == lab

theorem countP_replicate (m : Nat) (a : α) (p : α → Bool) :
    (List.replicate m a).countP p = if p a then m else 0 := by
  induction m with
  | zero => simp
  | succ j ih =>
    rw [List.replicate_succ, List.countP_cons, ih]
    by_cases h : p a = true
    · simp [h]
    · simp [h]

theorem countMatches_congr (g g' : MGraph) (h : g.nodes = g'.nodes)
    (lab : String) (pat : Attrs) :
    countMatches g lab pat = countMatches g' lab pat := by
  unfold countMatches
  rw [h]

/-- Appending only `LineItem` nodes does not change any `MATCH` count on a
different label. -/
theorem countMatches_append_li (ns : List MNode) (rs rs' : List MRel)
    (ext : List MNode) (hext : ∀ n ∈ ext, n.label = "LineItem")
    (lab : String) (hlab : lab ≠ "LineItem") (pat : Attrs) :
    countMatches ⟨ns ++ ext, rs⟩ lab pat = countMatches ⟨ns, rs'⟩ lab pat := by
  unfold countMatches
  dsimp only
  rw [List.countP_append]
  have hz : ext.countP (fun n => decide (nodeMatches n lab pat)) = 0 := by
    rw [List.countP_eq_zero]
    intro n hn
    simp only [decide_eq_true_eq]
    intro hm
    have h1 := hm.1
    rw [hext n hn] at h1
    exact hlab h1.symm
  rw [hz, Nat.add_zero]

theorem liBindings_congr (g g' : MGraph) (h : g.nodes = g'.nodes)
    (r : MLineitemRow) : liBindings g r = liBindings g' r := by
  unfold liBindings
  rw [countMatches_congr g g' h, countMatches_congr g g' h,
    countMatches_congr g g' h]

/-- Appending only `LineItem` nodes leaves the binding count of every
lineitem row unchanged. -/
theorem liBindings_append_li (g : MGraph) (ext : List MNode) (rs : List MRel)
    (hext : ∀ n ∈ ext, n.label = "LineItem") (r : MLineitemRow) :
    liBindings ⟨g.nodes ++ ext, rs⟩ r = liBindings g r := by
  unfold liBindings
  rw [countMatches_append_li g.nodes rs g.rels ext hext _ (by decide),
    countMatches_append_li g.nodes rs g.rels ext hext _ (by decide),
    countMatches_append_li g.nodes rs g.rels ext hext _ (by decide)]

theorem lineitemRowStep_nodes (g : MGraph) (r : MLineitemRow) :
    (lineitemRowStep g r).nodes
      = g.nodes ++ List.replicate (liBindings g r) ⟨"LineItem", lineitemProps r⟩ :=
  rfl

theorem liBindings_rowStep (g : MGraph) (r x : MLineitemRow) :
    liBindings (lineitemRowStep g r) x = liBindings g x := by
  rw [liBindings_congr (lineitemRowStep g r)
      ⟨g.nodes ++ List.replicate (liBindings g r) ⟨"LineItem", lineitemProps r⟩,
        (lineitemRowStep g r).rels⟩
      (lineitemRowStep_nodes g r) x,
    liBindings_append_li g _ _ (fun n hn => by rw [List.eq_of_mem_replicate hn]) x]

theorem labelCount_lineitemRowStep (g : MGraph) (r : MLineitemRow) :
    labelCount (lineitemRowStep g r) "LineItem"
      = labelCount g "LineItem" + liBindings g r := by
  unfold labelCount
  rw [lineitemRowStep_nodes, List.countP_append, countP_replicate]
  simp

/-- A lineitem load only appends `LineItem`-labelled nodes. -/
theorem mgLoadLineitem_shape (rows : List MLineitemRow) (g : MGraph) :
    ∃ ext, (mgLoadLineitem rows g).nodes = g.nodes ++ ext ∧
      ∀ n ∈ ext, n.label = "LineItem" := by
  induction rows generalizing g with
  | nil => exact ⟨[], (List.append_nil _).symm, by simp⟩
  | cons r t ih =>
    obtain ⟨ext2, h2, hl2⟩ := ih (lineitemRowStep g r)
    refine ⟨List.replicate (liBindings g r) ⟨"LineItem", lineitemProps r⟩ ++ ext2,
      ?_, ?_⟩
    · show (mgLoadLineitem t (lineitemRowStep g r)).nodes = _
      rw [h2, lineitemRowStep_nodes, List.append_assoc]
    · intro n hn
      rcases List.mem_append.mp hn with h | h
      · rw [List.eq_of_mem_replicate h]
      · exact hl2 n h

/-- The total number of nodes one lineitem load creates, as determined by
the pre-load graph. -/
def liTotal (rows : List MLineitemRow) (g : MGraph) : Nat :=
  (rows.map (liBindings g)).sum

theorem liBindings_mgLoadLineitem (rows : List MLineitemRow) (g : MGraph)
    (x : MLineitemRow) : liBindings (mgLoadLineitem rows g) x = liBindings g x := by
  obtain ⟨ext, he, hl⟩ := mgLoadLineitem_shape rows g
  rw [liBindings_congr (mgLoadLineitem rows g)
      ⟨g.nodes ++ ext, (mgLoadLineitem rows g).rels⟩ he x,
    liBindings_append_li g ext _ hl x]

theorem liTotal_load (rows rows' : List MLineitemRow) (g : MGraph) :
    liTotal rows (mgLoadLineitem rows' g) = liTotal rows g := by
  unfold liTotal
  congr 1
  exact List.map_congr_left fun x _ => liBindings_mgLoadLineitem rows' g x

theorem mgLoadLineitem_labelCount (rows : List MLineitemRow) (g : MGraph) :
    labelCount (mgLoadLineitem rows g) "LineItem"
      = labelCount g "LineItem" + liTotal rows g := by
  induction rows generalizing g with
  | nil => simp [liTotal, mgLoadLineitem]
  | cons r t ih =>
    show labelCount (mgLoadLineitem t (lineitemRowStep g r)) "LineItem" = _
    rw [ih, labelCount_lineitemRowStep]
    have ht : liTotal t (lineitemRowStep g r) = liTotal t g := by
      unfold liTotal
      congr 1
      exact List.map_congr_left fun x _ => liBindings_rowStep g r x
    rw [ht]
    unfold liTotal
    rw [List.map_cons, List.sum_cons]
    omega

theorem liTotal_iterate (rows : List MLineitemRow) (g : MGraph) (j : Nat) :
    liTotal rows ((mgLoadLineitem rows)^[j] g) = liTotal rows g := by
  induction j with
  | zero => rfl
  | succ i ih => rw [Function.iterate_succ_apply', liTotal_load, ih]

/-- Running the lineitem load `k` times adds `k` times the nodes of one
run. -/
theorem mgLoadLineitem_iterate (rows : List MLineitemRow) (g : MGraph) (k : Nat) :
    labelCount ((mgLoadLineitem rows)^[k] g) "LineItem"
      = labelCount g "LineItem" + k * liTotal rows g := by
  induction k with
  | zero => simp
  | succ j ih =>
    rw [Function.iterate_succ_apply', mgLoadLineitem_labelCount, ih,
      liTotal_iterate, Nat.succ_mul]
    omega

/-! ## Error propagation

Each pipeline method issues a sequence of backend calls; a call is either
wrapped in `try/except Exception` (failure printed as a warning, execution
continues) or bare (an exception propagates out of the method and, with no
handler up the stack, terminates the run).  `runStmts` interprets such a
sequence against an arbitrary backend behaviour `exec`, returning either
the list of calls issued together with the warnings printed, or the first
propagated exception. -/

/-- One backend call: `.attempt q` is wrapped in `try/except`, `.must q`
is bare. -/
inductive Stmt where
  | attempt (q : String)
  | must (q : String)
deriving DecidableEq, Repr

/-- The call a statement issues. -/
def Stmt.call : Stmt → String
  | .attempt q => q
  | .must q => q

/-- Interpret a statement sequence: on success, the issued calls (in
order) and the printed warnings; on a propagated exception, the error. -/
def runStmts (exec : String → Except String Unit) :
    List Stmt → Except String (List String × List String)
  | [] => .ok ([], [])
  | .attempt q :: rest =>
    let w := match exec q with
      | .ok _ => []
      | .error e => [e]
    match runStmts exec rest with
    | .ok (tr, ws) => .ok (q :: tr, w ++ ws)
    | .error e => .error e
  | .must q :: rest =>
    match exec q with
    | .error e => .error e
    | .ok _ =>
      match runStmts exec rest with
      | .ok (tr, ws) => .ok (q :: tr, ws)
      | .error e => .error e

/-- The thirteen index statements of `MemgraphTPCH.setup_indices`. -/
def mgIndexQueries : List String :=
  ["CREATE INDEX ON :Region(regionkey)",
   "CREATE INDEX ON :Nation(nationkey)",
   "CREATE INDEX ON :Supplier(suppkey)",
   "CREATE INDEX ON :Customer(custkey)",
   "CREATE INDEX ON :Part(partkey)",
   "CREATE INDEX ON :Order(orderkey)",
   "CREATE INDEX ON :Customer(nationkey)",
   "CREATE INDEX ON :Supplier(nationkey)",
   "CREATE INDEX ON :Nation(regionkey)",
   "CREATE INDEX ON :Order(custkey)",
   "CREATE INDEX ON :LineItem(orderkey)",
   "CREATE INDEX ON :LineItem(partkey)",
   "CREATE INDEX ON :LineItem(suppkey)"]

/-- `MemgraphTPCH.setup_indices`: every `cursor.execute(index_query)` sits
inside `try/except Exception`. -/
def mgSetupIndicesProg : List Stmt :=
  mgIndexQueries.map .attempt

/-- `MemgraphTPCH.clear`: the single
`cursor.execute("MATCH (n) DETACH DELETE n")` sits inside
`try/except Exception` that prints `"Clear database warning"`. -/
def mgClearProg : List Stmt :=
  [.attempt "MATCH (n) DETACH DELETE n"]

/-- `MemgraphTPCH.batch_load`: per chunk, a bare `cursor.execute` followed
by a bare `connection.commit()`. -/
def mgBatchLoadProg (nchunks : Nat) : List Stmt :=
  (List.range nchunks).flatMap fun i =>
    [.must ("execute batch " ++ toString i), .must ("commit batch " ++ toString i)]

/-- The vertex collections of the ArangoDB loader (module constant
`VERTICES`). -/
def arangoVERTICES : List String :=
  ["region", "nation", "supplier", "customer", "part", "partsupp", "orders",
   "lineitem"]

/-- The edge collections of the ArangoDB loader (module constant
`EDGES`). -/
def arangoEDGES : List String :=
  ["nation_region", "customer_nation", "supplier_nation", "customer_orders",
   "order_lineitems", "lineitem_supplier", "lineitem_part", "partsupp_part",
   "partsupp_supplier"]

/-- The index table of the ArangoDB loader (module constant `INDICES`):
collection name, then `(field, unique)` pairs. -/
def arangoINDICES : List (String × List (String × Bool)) :=
  [("customer", [("c_custkey", true)]),
   ("orders", [("o_orderkey", true), ("o_custkey", false)]),
   ("lineitem", [("l_orderkey", false), ("l_partkey", false),
                 ("l_suppkey", false)]),
   ("partsupp", [("ps_partkey", false), ("ps_suppkey", false)]),
   ("supplier", [("s_suppkey", true)]),
   ("part", [("p_partkey", true)]),
   ("nation", [("n_nationkey", true)]),
   ("region", [("r_regionkey", true)])]

/-- The index loop of `ArangoTPCH.asetup`: for every collection of
`INDICES` that exists, each `collection.add_index(...)` sits inside
`try/except Exception` that prints an
`"Index creation warning for <name>_<field>_idx"` message. -/
def arangoIndexSetupProg (hasColl : String → Bool) : List Stmt :=
  (arangoINDICES.filter fun x => hasColl x.1).flatMap fun x =>
    x.2.map fun f => .attempt (x.1 ++ "_" ++ f.1 ++ "_idx")

/-- `ArangoTPCH.aclear`: every `delete_graph`/`delete_collection` call is
bare — nothing is caught. -/
def arangoClearProg (hasGraph : Bool) (hasColl : String → Bool) : List Stmt :=
  if hasGraph then [.must "delete_graph tpchgraph"]
  else ((arangoVERTICES ++ arangoEDGES).filter hasColl).map fun c =>
    .must ("delete_collection " ++ c)

/-- A sequence made only of `try/except`-wrapped calls always returns:
every call is issued in order, the failing ones producing warnings. -/
theorem runStmts_all_attempt (exec : String → Except String Unit)
    (prog : List Stmt) (h : ∀ s ∈ prog, ∃ q, s = .attempt q) :
    runStmts exec prog =
      .ok (prog.map Stmt.call,
        prog.filterMap fun s =>
          match exec s.call with
          | .ok _ => none
          | .error e => some e) := by
  induction prog with
  | nil => rfl
  | cons s rest ih =>
    obtain ⟨q, rfl⟩ := h s (List.mem_cons_self s rest)
    have := ih fun s hs => h s (List.mem_cons_of_mem _ hs)
    unfold runStmts
    rw [this]
    dsimp only [Stmt.call, List.map_cons, List.filterMap_cons]
    cases exec q <;> rfl

/-- A bare failing call makes the whole sequence fail. -/
theorem runStmts_must_error (exec : String → Except String Unit)
    (prog : List Stmt) (q : String) (e : String)
    (hq : Stmt.must q ∈ prog) (he : exec q = .error e) :
    ∃ e', runStmts exec prog = .error e' := by
  induction prog with
  | nil => cases hq
  | cons s rest ih =>
    rcases List.mem_cons.mp hq with rfl | hmem
    · exact ⟨e, by simp only [runStmts, he]⟩
    · obtain ⟨e', he'⟩ := ih hmem
      cases s with
      | attempt q' => exact ⟨e', by simp only [runStmts, he']⟩
      | must q' =>
        cases hx : exec q' with
        | error e2 => exact ⟨e2, by simp only [runStmts, hx]⟩
        | ok u => exact ⟨e', by simp only [runStmts, hx, he']⟩

/-! ## Column selection

Every table reader is
`pd.read_csv(path, sep="|", header=None, usecols=range(n))`: it splits a
line on `|` and keeps exactly the first `n` fields. -/

/-- The effect of `usecols=range(n)` on one split line. -/
def usecolsRow (n : Nat) (fields : List String) : List String :=
  fields.take n

/-- The `usecols=range(n)` argument of each `aload_*` reader in
`src/arangodb/load.py`. -/
def arangoUsecols : List (String × Nat) :=
  [("region", 3), ("nation", 4), ("supplier", 7), ("customer", 8),
   ("part", 9), ("partsupp", 5), ("orders", 9), ("lineitem", 16)]

/-- The `usecols=range(n)` argument of each `aload_*` reader in
`src/memgraph/load.py`. -/
def memgraphUsecols : List (String × Nat) :=
  [("region", 3), ("nation", 4), ("supplier", 7), ("customer", 8),
   ("part", 9), ("partsupp", 5), ("orders", 9), ("lineitem", 16)]

/-! ## Write-call bookkeeping helpers -/

/-- The write calls a trace issues against one collection. -/
def callsTo (calls : List WCall) (c : String) : List WCall :=
  calls.filter fun w => w.coll == c

/-- All vertex documents carried by a call list. -/
def vtxDocsOf (calls : List WCall) : List ADoc :=
  calls.flatMap fun w =>
    match w.payload with
    | .vtx ds => ds
    | .edg _ => []

/-- All edge documents carried by a call list. -/
def edgDocsOf (calls : List WCall) : List AEdgeDoc :=
  calls.flatMap fun w =>
    match w.payload with
    | .vtx _ => []
    | .edg es => es

theorem filter_flatMap (l : List α) (f : α → List β) (p : β → Bool) :
    (l.flatMap f).filter p = l.flatMap fun a => (f a).filter p := by
  induction l with
  | nil => rfl
  | cons a t ih => simp [List.flatMap_cons, List.filter_append, ih]

theorem flatMap_flatMap (l : List α) (f : α → List β) (g : β → List γ) :
    (l.flatMap f).flatMap g = l.flatMap fun a => (f a).flatMap g := by
  induction l with
  | nil => rfl
  | cons a t ih => simp [List.flatMap_cons, List.flatMap_append, ih]

theorem flatMap_single (l : List α) (g : α → β) :
    (l.flatMap fun a => [g a]) = l.map g := by
  induction l with
  | nil => rfl
  | cons a t ih => simp [List.flatMap_cons, ih]

theorem filter_flatMap_single {l : List α} {f : α → List β} {p : β → Bool}
    {g : α → β} (h : ∀ a, (f a).filter p = [g a]) :
    ((l.flatMap f).filter p) = l.map g := by
  rw [filter_flatMap]
  have hf : (fun a => (f a).filter p) = fun a => [g a] := funext h
  rw [hf, flatMap_single]

theorem flatMap_over_map (l : List α) (f : α → β) (g : β → List γ) :
    (l.map f).flatMap g = l.flatMap fun a => g (f a) := by
  induction l with
  | nil => rfl
  | cons a t ih => simp [List.flatMap_cons, ih]

theorem flatMap_map_eq (l : List (List α)) (f : α → β) :
    (l.flatMap fun b => b.map f) = l.flatten.map f := by
  induction l with
  | nil => rfl
  | cons b t ih => simp [List.flatMap_cons, List.flatten_cons, ih]

/-- The per-batch call structure of `aload_lineitem`. -/
theorem aload_lineitem_split (rows : List LineitemRow) :
    aload_lineitem rows = (arangoLineitemChunks 1000 rows).flatMap fun b =>
      [⟨"lineitem", .vtx (b.map lineitemDoc)⟩,
       ⟨"order_lineitems", .edg (b.map orderLineitemEdge)⟩,
       ⟨"lineitem_part", .edg (b.map lineitemPartEdge)⟩,
       ⟨"lineitem_supplier", .edg (b.map lineitemSupplierEdge)⟩] := rfl

theorem callsTo_lineitem_eq (rows : List LineitemRow) :
    callsTo (aload_lineitem rows) "lineitem"
      = (arangoLineitemChunks 1000 rows).map fun b =>
          ⟨"lineitem", .vtx (b.map lineitemDoc)⟩ := by
  unfold callsTo
  rw [aload_lineitem_split]
  exact filter_flatMap_single fun b => rfl

theorem callsTo_order_lineitems_eq (rows : List LineitemRow) :
    callsTo (aload_lineitem rows) "order_lineitems"
      = (arangoLineitemChunks 1000 rows).map fun b =>
          ⟨"order_lineitems", .edg (b.map orderLineitemEdge)⟩ := by
  unfold callsTo
  rw [aload_lineitem_split]
  exact filter_flatMap_single fun b => rfl

theorem callsTo_lineitem_part_eq (rows : List LineitemRow) :
    callsTo (aload_lineitem rows) "lineitem_part"
      = (arangoLineitemChunks 1000 rows).map fun b =>
          ⟨"lineitem_part", .edg (b.map lineitemPartEdge)⟩ := by
  unfold callsTo
  rw [aload_lineitem_split]
  exact filter_flatMap_single fun b => rfl

theorem callsTo_lineitem_supplier_eq (rows : List LineitemRow) :
    callsTo (aload_lineitem rows) "lineitem_supplier"
      = (arangoLineitemChunks 1000 rows).map fun b =>
          ⟨"lineitem_supplier", .edg (b.map lineitemSupplierEdge)⟩ := by
  unfold callsTo
  rw [aload_lineitem_split]
  exact filter_flatMap_single fun b => rfl

theorem arangoLineitemChunks_len (rows : List LineitemRow) :
    (arangoLineitemChunks 1000 rows).length = (rows.length + 1000 - 1) / 1000 := by
  rw [arangoLineitemChunks_eq_chunkList 1000 (by norm_num) rows,
    chunkList_length 1000 (by norm_num) rows]

theorem arangoLineitemChunks_flatten (rows : List LineitemRow) :
    (arangoLineitemChunks 1000 rows).flatten = rows := by
  rw [arangoLineitemChunks_eq_chunkList 1000 (by norm_num) rows,
    chunkList_join 1000 (by norm_num) rows]

theorem vtxDocsOf_lineitem (rows : List LineitemRow) :
    vtxDocsOf (callsTo (aload_lineitem rows) "lineitem") = rows.map lineitemDoc := by
  rw [callsTo_lineitem_eq]
  unfold vtxDocsOf
  rw [flatMap_over_map]
  rw [show (fun b : List LineitemRow => b.map lineitemDoc)
      = fun b : List LineitemRow => (b.map lineitemDoc) from rfl]
  rw [flatMap_map_eq, arangoLineitemChunks_flatten]

theorem edgDocsOf_order_lineitems (rows : List LineitemRow) :
    edgDocsOf (callsTo (aload_lineitem rows) "order_lineitems")
      = rows.map orderLineitemEdge := by
  rw [callsTo_order_lineitems_eq]
  unfold edgDocsOf
  rw [flatMap_over_map, flatMap_map_eq, arangoLineitemChunks_flatten]

theorem edgDocsOf_lineitem_part (rows : List LineitemRow) :
    edgDocsOf (callsTo (aload_lineitem rows) "lineitem_part")
      = rows.map lineitemPartEdge := by
  rw [callsTo_lineitem_part_eq]
  unfold edgDocsOf
  rw [flatMap_over_map, flatMap_map_eq, arangoLineitemChunks_flatten]

theorem edgDocsOf_lineitem_supplier (rows : List LineitemRow) :
    edgDocsOf (callsTo (aload_lineitem rows) "lineitem_supplier")
      = rows.map lineitemSupplierEdge := by
  rw [callsTo_lineitem_supplier_eq]
  unfold edgDocsOf
  rw [flatMap_over_map, flatMap_map_eq, arangoLineitemChunks_flatten]

/-! ## The claims -/

/-- C1: for every record list of length R and batch size N > 0, the batch
committer issues exactly `⌈R / N⌉` write calls per target container
(`batch_load`'s slicing loop in the Memgraph variant; one `insert_many`
per batch per collection in the ArangoDB lineitem loader with N = 1000);
every chunk except possibly the last holds exactly N records, the last
holds `R mod N` (or N when N divides R), and concatenating the chunks in
issue order reconstructs the original record sequence. -/
theorem claim_C1 {α : Type} (bs : Nat) (hbs : 0 < bs) (data : List α)
    (rows : List LineitemRow) :
    (pySliceChunks bs data).length = (data.length + bs - 1) / bs
    ∧ (∀ c ∈ (pySliceChunks bs data).dropLast, c.length = bs)
    ∧ (data ≠ [] → ∃ c, (pySliceChunks bs data).getLast? = some c ∧
        c.length = if data.length % bs = 0 then bs else data.length % bs)
    ∧ (pySliceChunks bs data).flatten = data
    ∧ arangoLineitemChunks bs data = pySliceChunks bs data
    ∧ (callsTo (aload_lineitem rows) "lineitem").length
        = (rows.length + 1000 - 1) / 1000
    ∧ (callsTo (aload_lineitem rows) "order_lineitems").length
        = (rows.length + 1000 - 1) / 1000
    ∧ (callsTo (aload_lineitem rows) "lineitem_part").length
        = (rows.length + 1000 - 1) / 1000
    ∧ (callsTo (aload_lineitem rows) "lineitem_supplier").length
        = (rows.length + 1000 - 1) / 1000
    ∧ vtxDocsOf (callsTo (aload_lineitem rows) "lineitem") = rows.map lineitemDoc
    ∧ edgDocsOf (callsTo (aload_lineitem rows) "order_lineitems")
        = rows.map orderLineitemEdge
    ∧ edgDocsOf (callsTo (aload_lineitem rows) "lineitem_part")
        = rows.map lineitemPartEdge
    ∧ edgDocsOf (callsTo (aload_lineitem rows) "lineitem_supplier")
        = rows.map lineitemSupplierEdge := by
  refine ⟨?_, ?_, ?_, ?_, ?_, ?_, ?_, ?_, ?_, ?_, ?_, ?_, ?_⟩
  · rw [pySliceChunks_eq_chunkList bs hbs, chunkList_length bs hbs]
  · rw [pySliceChunks_eq_chunkList bs hbs]
    exact chunkList_dropLast bs hbs data
  · intro hne
    rw [pySliceChunks_eq_chunkList bs hbs]
    exact chunkList_getLast bs hbs data hne
  · rw [pySliceChunks_eq_chunkList bs hbs, chunkList_join bs hbs]
  · rw [pySliceChunks_eq_chunkList bs hbs,
      arangoLineitemChunks_eq_chunkList bs hbs]
  · rw [callsTo_lineitem_eq, List.length_map, arangoLineitemChunks_len]
  · rw [callsTo_order_lineitems_eq, List.length_map, arangoLineitemChunks_len]
  · rw [callsTo_lineitem_part_eq, List.length_map, arangoLineitemChunks_len]
  · rw [callsTo_lineitem_supplier_eq, List.length_map, arangoLineitemChunks_len]
  · exact vtxDocsOf_lineitem rows
  · exact edgDocsOf_order_lineitems rows
  · exact edgDocsOf_lineitem_part rows
  · exact edgDocsOf_lineitem_supplier rows

/-- Witness for C1 at batch size 2 over a five-element list and a
one-row lineitem table. -/
theorem claim_C1_witness :
    (0 < 2 ∧ (pySliceChunks 2 [10, 20, 30, 40, 50]).length = (5 + 2 - 1) / 2)
    ∧ (pySliceChunks 2 [10, 20, 30, 40, 50]).flatten = [10, 20, 30, 40, 50] := by
  have h := claim_C1 2 (by decide) [10, 20, 30, 40, 50]
    ([] : List LineitemRow)
  exact ⟨⟨by decide, h.1⟩, h.2.2.2.1⟩

/-- C9: every reader selects exactly the first N expected columns of the
pipe-delimited file — region 3, nation 4, supplier 7, customer 8, part 9,
partsupp 5, orders 9, lineitem 16, identically in both variants — and on a
generator line (N + 1 split fields, the last empty) this discards exactly
the trailing empty field. -/
theorem claim_C9 :
    arangoUsecols = [("region", 3), ("nation", 4), ("supplier", 7),
      ("customer", 8), ("part", 9), ("partsupp", 5), ("orders", 9),
      ("lineitem", 16)]
    ∧ memgraphUsecols = arangoUsecols
    ∧ ∀ (n : Nat) (fields : List String), fields.length = n + 1 →
        fields.getLast? = some "" → usecolsRow n fields = fields.dropLast := by
  refine ⟨rfl, rfl, ?_⟩
  intro n fields hlen _
  rw [usecolsRow, List.dropLast_eq_take, hlen]
  simp

/-- Witness for C9 on a concrete four-field region line. -/
theorem claim_C9_witness :
    usecolsRow 3 ["0", "AFRICA", "lar deposits", ""]
      = (["0", "AFRICA", "lar deposits", ""] : List String).dropLast :=
  claim_C9.2.2 3 ["0", "AFRICA", "lar deposits", ""] (by decide) (by decide)

/-- C3: the identity key of every single-key document is the string form
of the row's natural key; the partsupp key is
`"<ps_partkey>_<ps_suppkey>"` and the lineitem key
`"<l_orderkey>_<l_linenumber>"`, each joined with a single underscore, and
the same source row always yields the same key. -/
theorem claim_C3 (rr : RegionRow) (nr : NationRow) (sr : SupplierRow)
    (cr : CustomerRow) (pr : PartRow) (orr : OrdersRow) (psr : PartsuppRow)
    (lr : LineitemRow) :
    (regionDoc rr).key = toString rr.r_regionkey
    ∧ (nationDoc nr).key = toString nr.n_nationkey
    ∧ (supplierDoc sr).key = toString sr.s_suppkey
    ∧ (customerDoc cr).key = toString cr.c_custkey
    ∧ (partDoc pr).key = toString pr.p_partkey
    ∧ (ordersDoc orr).key = toString orr.o_orderkey
    ∧ (partsuppDoc psr).key
        = String.intercalate "_" [toString psr.ps_partkey, toString psr.ps_suppkey]
    ∧ (lineitemDoc lr).key
        = String.intercalate "_" [toString lr.l_orderkey, toString lr.l_linenumber]
    ∧ (∀ psr' : PartsuppRow, psr' = psr → partsuppKey psr' = partsuppKey psr)
    ∧ (∀ lr' : LineitemRow, lr' = lr → lineitemKey lr' = lineitemKey lr) := by
  refine ⟨rfl, rfl, rfl, rfl, rfl, rfl, ?_, ?_, ?_, ?_⟩
  · simp [partsuppDoc, partsuppKey, String.intercalate, String.intercalate.go,
      toString]
  · simp [lineitemDoc, lineitemKey, String.intercalate, String.intercalate.go,
      toString]
  · intro psr' h
    rw [h]
  · intro lr' h
    rw [h]

/-- Witness for C3 on a concrete partsupp row. -/
theorem claim_C3_witness :
    (partsuppDoc ⟨1, 2, "3325", "771.64", "c"⟩).key
      = String.intercalate "_" [toString (1 : Int), toString (2 : Int)]
    ∧ partsuppKey ⟨1, 2, "3325", "771.64", "c"⟩
        = partsuppKey ⟨1, 2, "3325", "771.64", "c"⟩ := by
  have h := claim_C3 ⟨0, "AFRICA", "x"⟩ ⟨0, "ALGERIA", 0, "x"⟩
    ⟨1, "S1", "addr", 1, "p", "a", "c"⟩ ⟨1, "C1", "addr", 1, "p", "a", "m", "c"⟩
    ⟨1, "P1", "m", "b", "t", "s", "cn", "rp", "c"⟩
    ⟨1, 1, "O", "t", "d", "p", "cl", "s", "c"⟩ ⟨1, 2, "3325", "771.64", "c"⟩
    ⟨1, 155, 4, 1, "q", "e", "d", "t", "r", "l", "s1", "s2", "s3", "si", "sm", "c"⟩
  exact ⟨h.2.2.2.2.2.2.1, h.2.2.2.2.2.2.2.2.1 _ rfl⟩

/-- C10: in the ArangoDB variant only the lineitem table is batched:
every other table writes all its vertex records with exactly one
`insert_many` per vertex collection and all its edge records with exactly
one `insert_many` per edge collection, regardless of row count, while the
lineitem trace issues `⌈R / 1000⌉` calls per collection. -/
theorem claim_C10 (d : Dataset) :
    (callsTo (aload_region d.region) "region").length = 1
    ∧ vtxDocsOf (callsTo (aload_region d.region) "region")
        = d.region.map regionDoc
    ∧ (callsTo (aload_nation d.nation) "nation").length = 1
    ∧ vtxDocsOf (callsTo (aload_nation d.nation) "nation")
        = d.nation.map nationDoc
    ∧ (callsTo (aload_nation d.nation) "nation_region").length = 1
    ∧ edgDocsOf (callsTo (aload_nation d.nation) "nation_region")
        = d.nation.map nationRegionEdge
    ∧ (callsTo (aload_supplier d.supplier) "supplier").length = 1
    ∧ vtxDocsOf (callsTo (aload_supplier d.supplier) "supplier")
        = d.supplier.map supplierDoc
    ∧ (callsTo (aload_supplier d.supplier) "supplier_nation").length = 1
    ∧ edgDocsOf (callsTo (aload_supplier d.supplier) "supplier_nation")
        = d.supplier.map supplierNationEdge
    ∧ (callsTo (aload_customer d.customer) "customer").length = 1
    ∧ vtxDocsOf (callsTo (aload_customer d.customer) "customer")
        = d.customer.map customerDoc
    ∧ (callsTo (aload_customer d.customer) "customer_nation").length = 1
    ∧ edgDocsOf (callsTo (aload_customer d.customer) "customer_nation")
        = d.customer.map customerNationEdge
    ∧ (callsTo (aload_part d.part) "part").length = 1
    ∧ vtxDocsOf (callsTo (aload_part d.part) "part") = d.part.map partDoc
    ∧ (callsTo (aload_partsupp d.partsupp) "partsupp").length = 1
    ∧ vtxDocsOf (callsTo (aload_partsupp d.partsupp) "partsupp")
        = d.partsupp.map partsuppDoc
    ∧ (callsTo (aload_partsupp d.partsupp) "partsupp_part").length = 1
    ∧ edgDocsOf (callsTo (aload_partsupp d.partsupp) "partsupp_part")
        = d.partsupp.map partsuppPartEdge
    ∧ (callsTo (aload_partsupp d.partsupp) "partsupp_supplier").length = 1
    ∧ edgDocsOf (callsTo (aload_partsupp d.partsupp) "partsupp_supplier")
        = d.partsupp.map partsuppSupplierEdge
    ∧ (callsTo (aload_orders d.orders) "orders").length = 1
    ∧ vtxDocsOf (callsTo (aload_orders d.orders) "orders")
        = d.orders.map ordersDoc
    ∧ (callsTo (aload_orders d.orders) "customer_orders").length = 1
    ∧ edgDocsOf (callsTo (aload_orders d.orders) "customer_orders")
        = d.orders.map customerOrdersEdge
    ∧ (callsTo (aload_lineitem d.lineitem) "lineitem").length
        = (d.lineitem.length + 1000 - 1) / 1000 := by
  refine ⟨rfl, by simp [callsTo, aload_region, vtxDocsOf],
    rfl, by simp [callsTo, aload_nation, vtxDocsOf],
    rfl, by simp [callsTo, aload_nation, edgDocsOf],
    rfl, by simp [callsTo, aload_supplier, vtxDocsOf],
    rfl, by simp [callsTo, aload_supplier, edgDocsOf],
    rfl, by simp [callsTo, aload_customer, vtxDocsOf],
    rfl, by simp [callsTo, aload_customer, edgDocsOf],
    rfl, by simp [callsTo, aload_part, vtxDocsOf],
    rfl, by simp [callsTo, aload_partsupp, vtxDocsOf],
    rfl, by simp [callsTo, aload_partsupp, edgDocsOf],
    rfl, by simp [callsTo, aload_partsupp, edgDocsOf],
    rfl, by simp [callsTo, aload_orders, vtxDocsOf],
    rfl, by simp [callsTo, aload_orders, edgDocsOf],
    ?_⟩
  rw [callsTo_lineitem_eq, List.length_map, arangoLineitemChunks_len]

/-- The edge documents of the lineitem step, per batch. -/
theorem stepEdgeDocs_aload_lineitem (rows : List LineitemRow) :
    stepEdgeDocs (aload_lineitem rows)
      = (arangoLineitemChunks 1000 rows).flatMap fun b =>
          b.map orderLineitemEdge ++ b.map lineitemPartEdge
            ++ b.map lineitemSupplierEdge := by
  unfold stepEdgeDocs
  rw [aload_lineitem_split, flatMap_flatMap]
  refine congrArg _ (funext fun b => ?_)
  simp

/-- C2: both variants load the tables in exactly the order region, nation,
supplier, customer, part, partsupp, orders, lineitem, each table's edge
records being written inside that table's own load step; consequently, in
the document-style variant, both endpoint collections of every edge
document written at step `i` are vertex tables loaded at or before step
`i`. -/
theorem claim_C2 (d : Dataset) (md : MDataset) :
    arangoLoadOrder d = ["region", "nation", "supplier", "customer", "part",
      "partsupp", "orders", "lineitem"]
    ∧ memgraphLoadOrder md = ["region", "nation", "supplier", "customer",
      "part", "partsupp", "orders", "lineitem"]
    ∧ ∀ i, (hi : i < (arangoSteps d).length) →
        ∀ e ∈ stepEdgeDocs ((arangoSteps d)[i]).2,
          e.fromColl ∈ (arangoLoadOrder d).take (i + 1)
          ∧ e.toColl ∈ (arangoLoadOrder d).take (i + 1) := by
  refine ⟨rfl, rfl, ?_⟩
  intro i hi e he
  have h8 : i < 8 := hi
  interval_cases i
  · simp [arangoSteps, stepEdgeDocs, aload_region] at he
  · simp [arangoSteps, stepEdgeDocs, aload_nation] at he
    obtain ⟨r, _, rfl⟩ := he
    constructor <;> simp [nationRegionEdge, arangoLoadOrder, arangoSteps]
  · simp [arangoSteps, stepEdgeDocs, aload_supplier] at he
    obtain ⟨r, _, rfl⟩ := he
    constructor <;> simp [supplierNationEdge, arangoLoadOrder, arangoSteps]
  · simp [arangoSteps, stepEdgeDocs, aload_customer] at he
    obtain ⟨r, _, rfl⟩ := he
    constructor <;> simp [customerNationEdge, arangoLoadOrder, arangoSteps]
  · simp [arangoSteps, stepEdgeDocs, aload_part] at he
  · simp [arangoSteps, stepEdgeDocs, aload_partsupp] at he
    rcases he with ⟨r, _, rfl⟩ | ⟨r, _, rfl⟩ <;> constructor <;>
      simp [partsuppPartEdge, partsuppSupplierEdge, arangoLoadOrder, arangoSteps]
  · simp [arangoSteps, stepEdgeDocs, aload_orders] at he
    obtain ⟨r, _, rfl⟩ := he
    constructor <;> simp [customerOrdersEdge, arangoLoadOrder, arangoSteps]
  · have he' : e ∈ stepEdgeDocs (aload_lineitem d.lineitem) := he
    rw [stepEdgeDocs_aload_lineitem] at he'
    simp only [List.mem_flatMap, List.mem_append, List.mem_map] at he'
    rcases he' with ⟨b, _, (⟨r, _, rfl⟩ | ⟨r, _, rfl⟩) | ⟨r, _, rfl⟩⟩ <;>
      constructor <;>
      simp [orderLineitemEdge, lineitemPartEdge, lineitemSupplierEdge,
        arangoLoadOrder, arangoSteps]

/-- Witness for C2: the nation→region edge of a one-nation dataset,
written at step 1, has both endpoint collections among the first two
loaded tables. -/
theorem claim_C2_witness :
    (nationRegionEdge ⟨0, "ALGERIA", 0, "x"⟩).fromColl ∈
      (arangoLoadOrder ⟨[], [⟨0, "ALGERIA", 0, "x"⟩], [], [], [], [], [], []⟩).take (1 + 1)
    ∧ (nationRegionEdge ⟨0, "ALGERIA", 0, "x"⟩).toColl ∈
      (arangoLoadOrder ⟨[], [⟨0, "ALGERIA", 0, "x"⟩], [], [], [], [], [], []⟩).take (1 + 1) :=
  (claim_C2 ⟨[], [⟨0, "ALGERIA", 0, "x"⟩], [], [], [], [], [], []⟩
    ⟨[], [], [], [], [], [], [], []⟩).2.2 1 (by decide)
    (nationRegionEdge ⟨0, "ALGERIA", 0, "x"⟩) (by decide)

theorem map_flatMap (l : List α) (f : α → List β) (g : β → γ) :
    (l.flatMap f).map g = l.flatMap fun a => (f a).map g := by
  induction l with
  | nil => rfl
  | cons a t ih => simp [List.flatMap_cons, ih]

/-- C8: during schema setup, every index-creation call in both variants is
try/except-wrapped: whatever the backend outcomes, setup issues every
index statement in order and returns normally — an index failure never
aborts setup. -/
theorem claim_C8 (exec : String → Except String Unit) (hasColl : String → Bool) :
    (∃ ws, runStmts exec mgSetupIndicesProg = .ok (mgIndexQueries, ws))
    ∧ (∃ ws, runStmts exec (arangoIndexSetupProg hasColl)
        = .ok ((arangoINDICES.filter fun x => hasColl x.1).flatMap fun x =>
            x.2.map fun f => x.1 ++ "_" ++ f.1 ++ "_idx", ws)) := by
  constructor
  · have hall : ∀ s ∈ mgSetupIndicesProg, ∃ q, s = .attempt q := by
      intro s hs
      rw [mgSetupIndicesProg] at hs
      obtain ⟨q, _, rfl⟩ := List.mem_map.mp hs
      exact ⟨q, rfl⟩
    have hrun := runStmts_all_attempt exec mgSetupIndicesProg hall
    have htr : mgSetupIndicesProg.map Stmt.call = mgIndexQueries := by
      rw [mgSetupIndicesProg, List.map_map]
      rfl
    rw [htr] at hrun
    exact ⟨_, hrun⟩
  · have hall : ∀ s ∈ arangoIndexSetupProg hasColl, ∃ q, s = .attempt q := by
      intro s hs
      rw [arangoIndexSetupProg] at hs
      obtain ⟨x, _, hx⟩ := List.mem_flatMap.mp hs
      obtain ⟨f, _, rfl⟩ := List.mem_map.mp hx
      exact ⟨_, rfl⟩
    have hrun := runStmts_all_attempt exec (arangoIndexSetupProg hasColl) hall
    have htr : (arangoIndexSetupProg hasColl).map Stmt.call
        = (arangoINDICES.filter fun x => hasColl x.1).flatMap fun x =>
            x.2.map fun f => x.1 ++ "_" ++ f.1 ++ "_idx" := by
      rw [arangoIndexSetupProg, map_flatMap]
      refine congrArg _ (funext fun x => ?_)
      rw [List.map_map]
      rfl
    rw [htr] at hrun
    exact ⟨_, hrun⟩

/-- Counterexample to C5 as stated: a failing
`MATCH (n) DETACH DELETE n` inside `MemgraphTPCH.clear` does NOT propagate
— the method catches every exception, prints a warning, and returns
normally. -/
theorem claim_C5_counterexample :
    runStmts (fun _ => .error "boom") mgClearProg
      = .ok (["MATCH (n) DETACH DELETE n"], ["boom"]) := rfl

/-- C5 (amended): index setup and, in the Memgraph variant, the clear
operation recover errors locally (caught and logged, the method returns
normally); every batch-write error and every ArangoDB clear error
propagates uncaught. -/
theorem claim_C5 (exec : String → Except String Unit) :
    (∀ e, exec "MATCH (n) DETACH DELETE n" = .error e →
      runStmts exec mgClearProg = .ok (["MATCH (n) DETACH DELETE n"], [e]))
    ∧ (∃ tr, runStmts exec mgClearProg = .ok tr)
    ∧ (∃ tr, runStmts exec mgSetupIndicesProg = .ok tr)
    ∧ (∀ n q e, Stmt.must q ∈ mgBatchLoadProg n → exec q = .error e →
        ∃ e', runStmts exec (mgBatchLoadProg n) = .error e')
    ∧ (∀ hasGraph hasColl q e,
        Stmt.must q ∈ arangoClearProg hasGraph hasColl → exec q = .error e →
        ∃ e', runStmts exec (arangoClearProg hasGraph hasColl) = .error e') := by
  refine ⟨?_, ?_, ?_, ?_, ?_⟩
  · intro e he
    simp only [mgClearProg, runStmts, he, List.append_nil]
  · cases hx : exec "MATCH (n) DETACH DELETE n" with
    | ok u =>
      exact ⟨(["MATCH (n) DETACH DELETE n"], []),
        by simp only [mgClearProg, runStmts, hx, List.append_nil]⟩
    | error e =>
      exact ⟨(["MATCH (n) DETACH DELETE n"], [e]),
        by simp only [mgClearProg, runStmts, hx, List.append_nil]⟩
  · have hrun := runStmts_all_attempt exec mgSetupIndicesProg (by
      intro s hs
      rw [mgSetupIndicesProg] at hs
      obtain ⟨q, _, rfl⟩ := List.mem_map.mp hs
      exact ⟨q, rfl⟩)
    exact ⟨_, hrun⟩
  · intro n q e hq he
    exact runStmts_must_error exec (mgBatchLoadProg n) q e hq he
  · intro hasGraph hasColl q e hq he
    exact runStmts_must_error exec (arangoClearProg hasGraph hasColl) q e hq he

/-- Witness for C5: with a backend that fails the first batch execute, the
one-chunk batch load errors out, while the failing Memgraph clear still
returns normally. -/
theorem claim_C5_witness :
    (∃ e', runStmts
        (fun q => if q = "execute batch 0" then .error "dup" else .ok ())
        (mgBatchLoadProg 1) = .error e')
    ∧ runStmts (fun _ => .error "down") mgClearProg
        = .ok (["MATCH (n) DETACH DELETE n"], ["down"]) :=
  ⟨(claim_C5 (fun q => if q = "execute batch 0" then .error "dup" else .ok ())).2.2.2.1
      1 "execute batch 0" "dup" (by decide) rfl,
    (claim_C5 (fun _ => .error "down")).1 "down" rfl⟩

/-- All vertex documents of the lineitem trace, across batches. -/
theorem vtxDocsOf_aload_lineitem (rows : List LineitemRow) :
    vtxDocsOf (aload_lineitem rows) = rows.map lineitemDoc := by
  unfold vtxDocsOf
  rw [aload_lineitem_split, flatMap_flatMap]
  have hb : (fun b : List LineitemRow =>
      ([(⟨"lineitem", .vtx (b.map lineitemDoc)⟩ : WCall),
        ⟨"order_lineitems", .edg (b.map orderLineitemEdge)⟩,
        ⟨"lineitem_part", .edg (b.map lineitemPartEdge)⟩,
        ⟨"lineitem_supplier", .edg (b.map lineitemSupplierEdge)⟩]).flatMap
        fun w => match w.payload with | .vtx ds => ds | .edg _ => [])
      = fun b : List LineitemRow => b.map lineitemDoc := by
    funext b
    simp
  rw [hb, flatMap_map_eq, arangoLineitemChunks_flatten]

/-- Per-row node effect of each upserting Memgraph query. -/
theorem regionRowStep_length (g : MGraph) (r : MRegionRow) :
    (regionRowStep g r).nodes.length =
      if hasMatch g "Region" [("regionkey", Val.i r.regionkey)] then
        g.nodes.length
      else g.nodes.length + 1 :=
  @upsertStep_length MRegionRow "Region" "regionkey" (fun r => r.regionkey)
    (fun r => [("name", .s r.name), ("comment", .s r.comment)]) (fun g _ => g)
    (fun _ _ => rfl) g r

theorem nationRowStep_length (g : MGraph) (r : MNationRow) :
    (nationRowStep g r).nodes.length =
      if hasMatch g "Nation" [("nationkey", Val.i r.nationkey)] then
        g.nodes.length
      else g.nodes.length + 1 :=
  @upsertStep_length MNationRow "Nation" "nationkey" (fun r => r.nationkey)
    (fun r => [("name", .s r.name), ("comment", .s r.comment)])
    (fun g1 r =>
      if hasMatch g1 "Region" [("regionkey", .i r.regionkey)] then
        mergeRel g1 { rtype := "BELONGS_TO"
                      srcLabel := "Nation", srcPat := [("nationkey", .i r.nationkey)]
                      dstLabel := "Region", dstPat := [("regionkey", .i r.regionkey)]
                      props := [] }
      else g1)
    (by intro g r; dsimp only; split; exacts [mergeRel_nodes _ _, rfl]) g r

theorem supplierRowStep_length (g : MGraph) (r : MSupplierRow) :
    (supplierRowStep g r).nodes.length =
      if hasMatch g "Supplier" [("suppkey", Val.i r.suppkey)] then
        g.nodes.length
      else g.nodes.length + 1 :=
  @upsertStep_length MSupplierRow "Supplier" "suppkey" (fun r => r.suppkey)
    (fun r => [("name", .s r.name), ("address", .s r.address),
               ("phone", .s r.phone), ("acctbal", .s r.acctbal),
               ("comment", .s r.comment)])
    (fun g1 r =>
      if hasMatch g1 "Nation" [("nationkey", .i r.nationkey)] then
        mergeRel g1 { rtype := "LOCATED_IN"
                      srcLabel := "Supplier", srcPat := [("suppkey", .i r.suppkey)]
                      dstLabel := "Nation", dstPat := [("nationkey", .i r.nationkey)]
                      props := [] }
      else g1)
    (by intro g r; dsimp only; split; exacts [mergeRel_nodes _ _, rfl]) g r

theorem customerRowStep_length (g : MGraph) (r : MCustomerRow) :
    (customerRowStep g r).nodes.length =
      if hasMatch g "Customer" [("custkey", Val.i r.custkey)] then
        g.nodes.length
      else g.nodes.length + 1 :=
  @upsertStep_length MCustomerRow "Customer" "custkey" (fun r => r.custkey)
    (fun r => [("name", .s r.name), ("address", .s r.address),
               ("phone", .s r.phone), ("acctbal", .s r.acctbal),
               ("mktsegment", .s r.mktsegment), ("comment", .s r.comment)])
    (fun g1 r =>
      if hasMatch g1 "Nation" [("nationkey", .i r.nationkey)] then
        mergeRel g1 { rtype := "LOCATED_IN"
                      srcLabel := "Customer", srcPat := [("custkey", .i r.custkey)]
                      dstLabel := "Nation", dstPat := [("nationkey", .i r.nationkey)]
                      props := [] }
      else g1)
    (by intro g r; dsimp only; split; exacts [mergeRel_nodes _ _, rfl]) g r

theorem partRowStep_length (g : MGraph) (r : MPartRow) :
    (partRowStep g r).nodes.length =
      if hasMatch g "Part" [("partkey", Val.i r.partkey)] then
        g.nodes.length
      else g.nodes.length + 1 :=
  @upsertStep_length MPartRow "Part" "partkey" (fun r => r.partkey)
    (fun r => [("name", .s r.name), ("mfgr", .s r.mfgr), ("brand", .s r.brand),
               ("type", .s r.type), ("size", .s r.size),
               ("container", .s r.container),
               ("retailprice", .s r.retailprice), ("comment", .s r.comment)])
    (fun g _ => g) (fun _ _ => rfl) g r

theorem ordersRowStep_length (g : MGraph) (r : MOrdersRow) :
    (ordersRowStep g r).nodes.length =
      if hasMatch g "Order" [("orderkey", Val.i r.orderkey)] then
        g.nodes.length
      else g.nodes.length + 1 :=
  @upsertStep_length MOrdersRow "Order" "orderkey" (fun r => r.orderkey)
    (fun r => [("orderstatus", .s r.orderstatus), ("totalprice", .s r.totalprice),
               ("orderdate", .s r.orderdate),
               ("orderpriority", .s r.orderpriority), ("clerk", .s r.clerk),
               ("shippriority", .s r.shippriority), ("comment", .s r.comment)])
    (fun g1 r =>
      if hasMatch g1 "Customer" [("custkey", .i r.custkey)] then
        mergeRel g1 { rtype := "PLACED"
                      srcLabel := "Customer", srcPat := [("custkey", .i r.custkey)]
                      dstLabel := "Order", dstPat := [("orderkey", .i r.orderkey)]
                      props := [] }
      else g1)
    (by intro g r; dsimp only; split; exacts [mergeRel_nodes _ _, rfl]) g r

theorem lineitemRowStep_length (g : MGraph) (r : MLineitemRow) :
    (lineitemRowStep g r).nodes.length = g.nodes.length + liBindings g r := by
  rw [congrArg List.length (lineitemRowStep_nodes g r), List.length_append,
    List.length_replicate]

/-- Counterexample to C6 as stated: in the Memgraph variant, loading one
partsupp row into a graph that already holds the row's Part and Supplier
nodes (so both `MATCH` clauses succeed) creates no vertex at all — the
node count stays 2, instead of gaining a partsupp vertex. -/
theorem claim_C6_counterexample :
    (partsuppRowStep
        ⟨[⟨"Part", [("partkey", Val.i 1)]⟩, ⟨"Supplier", [("suppkey", Val.i 2)]⟩],
          []⟩
        ⟨1, 2, "3325", "771.64", "c"⟩).nodes.length = 2 := rfl

/-- C6 (amended): in the document-style variant each of the eight tables
produces exactly one vertex document per source row; in the
relationship-pattern variant region, nation, supplier, customer, part and
orders merge exactly one node per row (a new node exactly when the key is
unmatched), lineitem creates one node per `MATCH` binding combination, and
partsupp produces no vertex at all — its rows become SUPPLIES
relationships. -/
theorem claim_C6 (d : Dataset) :
    (vtxDocsOf (aload_region d.region)).length = d.region.length
    ∧ (vtxDocsOf (aload_nation d.nation)).length = d.nation.length
    ∧ (vtxDocsOf (aload_supplier d.supplier)).length = d.supplier.length
    ∧ (vtxDocsOf (aload_customer d.customer)).length = d.customer.length
    ∧ (vtxDocsOf (aload_part d.part)).length = d.part.length
    ∧ (vtxDocsOf (aload_partsupp d.partsupp)).length = d.partsupp.length
    ∧ (vtxDocsOf (aload_orders d.orders)).length = d.orders.length
    ∧ (vtxDocsOf (aload_lineitem d.lineitem)).length = d.lineitem.length
    ∧ (∀ g r, (partsuppRowStep g r).nodes = g.nodes)
    ∧ (∀ g r, (regionRowStep g r).nodes.length =
        if hasMatch g "Region" [("regionkey", Val.i r.regionkey)] then
          g.nodes.length else g.nodes.length + 1)
    ∧ (∀ g r, (nationRowStep g r).nodes.length =
        if hasMatch g "Nation" [("nationkey", Val.i r.nationkey)] then
          g.nodes.length else g.nodes.length + 1)
    ∧ (∀ g r, (supplierRowStep g r).nodes.length =
        if hasMatch g "Supplier" [("suppkey", Val.i r.suppkey)] then
          g.nodes.length else g.nodes.length + 1)
    ∧ (∀ g r, (customerRowStep g r).nodes.length =
        if hasMatch g "Customer" [("custkey", Val.i r.custkey)] then
          g.nodes.length else g.nodes.length + 1)
    ∧ (∀ g r, (partRowStep g r).nodes.length =
        if hasMatch g "Part" [("partkey", Val.i r.partkey)] then
          g.nodes.length else g.nodes.length + 1)
    ∧ (∀ g r, (ordersRowStep g r).nodes.length =
        if hasMatch g "Order" [("orderkey", Val.i r.orderkey)] then
          g.nodes.length else g.nodes.length + 1)
    ∧ (∀ g r, (lineitemRowStep g r).nodes.length
        = g.nodes.length + liBindings g r) := by
  refine ⟨?_, ?_, ?_, ?_, ?_, ?_, ?_, ?_,
    partsuppRowStep_nodes, regionRowStep_length, nationRowStep_length,
    supplierRowStep_length, customerRowStep_length, partRowStep_length,
    ordersRowStep_length, lineitemRowStep_length⟩
  · simp [vtxDocsOf, aload_region]
  · simp [vtxDocsOf, aload_nation]
  · simp [vtxDocsOf, aload_supplier]
  · simp [vtxDocsOf, aload_customer]
  · simp [vtxDocsOf, aload_part]
  · simp [vtxDocsOf, aload_partsupp]
  · simp [vtxDocsOf, aload_orders]
  · rw [vtxDocsOf_aload_lineitem, List.length_map]

/-! ## Edge directions -/

/-- The direction signature of a relationship: type, source label, target
label. -/
def relDir (x : MRel) : String × String × String :=
  (x.rtype, x.srcLabel, x.dstLabel)

/-- The nine child→parent foreign keys of the schema, as
(child table, parent table) pairs. -/
def fkPairs : List (String × String) :=
  [("nation", "region"), ("supplier", "nation"), ("customer", "nation"),
   ("customer", "orders"), ("orders", "lineitem"), ("lineitem", "part"),
   ("lineitem", "supplier"), ("partsupp", "part"), ("partsupp", "supplier")]

/-- The source table behind each Memgraph node label. -/
def tableOfLabel : String → String
  | "Region" => "region"
  | "Nation" => "nation"
  | "Supplier" => "supplier"
  | "Customer" => "customer"
  | "Part" => "part"
  | "Order" => "orders"
  | "LineItem" => "lineitem"
  | _ => ""

theorem mergeNode_rels (g : MGraph) (lab : String) (pat upd : Attrs) :
    (mergeNode g lab pat upd).rels = g.rels := by
  unfold mergeNode
  split <;> rfl

/-- Relationship merging preserves every existing relationship's direction
signature, adding at most the merged one. -/
theorem mergeRel_dirs (g : MGraph) (e : MRel) :
    (mergeRel g e).rels.map relDir = g.rels.map relDir
    ∨ (mergeRel g e).rels.map relDir = g.rels.map relDir ++ [relDir e] := by
  unfold mergeRel
  split
  · left
    dsimp only
    rw [List.map_map]
    apply List.map_congr_left
    intro x _
    dsimp only [Function.comp]
    split <;> rfl
  · right
    dsimp only
    rw [List.map_append]
    rfl

theorem mergeRel_dirs_after (g g1 : MGraph) (e : MRel) (hg : g1.rels = g.rels) :
    (mergeRel g1 e).rels.map relDir = g.rels.map relDir
    ∨ (mergeRel g1 e).rels.map relDir = g.rels.map relDir ++ [relDir e] := by
  rcases mergeRel_dirs g1 e with h | h
  · left
    rw [h, hg]
  · right
    rw [h, hg]

theorem regionRowStep_rels (g : MGraph) (r : MRegionRow) :
    (regionRowStep g r).rels = g.rels :=
  mergeNode_rels g _ _ _

theorem partRowStep_rels (g : MGraph) (r : MPartRow) :
    (partRowStep g r).rels = g.rels :=
  mergeNode_rels g _ _ _

theorem nationRowStep_dirs (g : MGraph) (r : MNationRow) :
    (nationRowStep g r).rels.map relDir = g.rels.map relDir
    ∨ (nationRowStep g r).rels.map relDir
        = g.rels.map relDir ++ [("BELONGS_TO", "Nation", "Region")] := by
  unfold nationRowStep
  dsimp only
  have hg1 := mergeNode_rels g "Nation" [("nationkey", .i r.nationkey)]
    [("name", .s r.name), ("comment", .s r.comment)]
  split
  · exact mergeRel_dirs_after g _ _ hg1
  · left
    rw [hg1]

theorem supplierRowStep_dirs (g : MGraph) (r : MSupplierRow) :
    (supplierRowStep g r).rels.map relDir = g.rels.map relDir
    ∨ (supplierRowStep g r).rels.map relDir
        = g.rels.map relDir ++ [("LOCATED_IN", "Supplier", "Nation")] := by
  unfold supplierRowStep
  dsimp only
  have hg1 := mergeNode_rels g "Supplier" [("suppkey", .i r.suppkey)]
    [("name", .s r.name), ("address", .s r.address), ("phone", .s r.phone),
     ("acctbal", .s r.acctbal), ("comment", .s r.comment)]
  split
  · exact mergeRel_dirs_after g _ _ hg1
  · left
    rw [hg1]

theorem customerRowStep_dirs (g : MGraph) (r : MCustomerRow) :
    (customerRowStep g r).rels.map relDir = g.rels.map relDir
    ∨ (customerRowStep g r).rels.map relDir
        = g.rels.map relDir ++ [("LOCATED_IN", "Customer", "Nation")] := by
  unfold customerRowStep
  dsimp only
  have hg1 := mergeNode_rels g "Customer" [("custkey", .i r.custkey)]
    [("name", .s r.name), ("address", .s r.address), ("phone", .s r.phone),
     ("acctbal", .s r.acctbal), ("mktsegment", .s r.mktsegment),
     ("comment", .s r.comment)]
  split
  · exact mergeRel_dirs_after g _ _ hg1
  · left
    rw [hg1]

theorem ordersRowStep_dirs (g : MGraph) (r : MOrdersRow) :
    (ordersRowStep g r).rels.map relDir = g.rels.map relDir
    ∨ (ordersRowStep g r).rels.map relDir
        = g.rels.map relDir ++ [("PLACED", "Customer", "Order")] := by
  unfold ordersRowStep
  dsimp only
  have hg1 := mergeNode_rels g "Order" [("orderkey", .i r.orderkey)]
    [("orderstatus", .s r.orderstatus), ("totalprice", .s r.totalprice),
     ("orderdate", .s r.orderdate), ("orderpriority", .s r.orderpriority),
     ("clerk", .s r.clerk), ("shippriority", .s r.shippriority),
     ("comment", .s r.comment)]
  split
  · exact mergeRel_dirs_after g _ _ hg1
  · left
    rw [hg1]

theorem partsuppRowStep_dirs (g : MGraph) (r : MPartsuppRow) :
    (partsuppRowStep g r).rels.map relDir = g.rels.map relDir
    ∨ (partsuppRowStep g r).rels.map relDir
        = g.rels.map relDir ++ [("SUPPLIES", "Supplier", "Part")] := by
  unfold partsuppRowStep
  split
  · exact mergeRel_dirs_after g g _ rfl
  · left
    rfl

theorem lineitemRowStep_dirs (g : MGraph) (r : MLineitemRow) :
    (lineitemRowStep g r).rels.map relDir
      = g.rels.map relDir
        ++ List.replicate (liBindings g r) ("CONTAINS", "Order", "LineItem")
        ++ List.replicate (liBindings g r) ("OF_PART", "LineItem", "Part")
        ++ List.replicate (liBindings g r) ("SUPPLIED_BY", "LineItem", "Supplier") := by
  unfold lineitemRowStep
  dsimp only
  simp only [List.map_append, List.map_replicate]
  rfl

/-- Counterexample to C7 as stated: in the Memgraph variant, a partsupp
row (with both endpoints present) produces exactly one SUPPLIES
relationship directed supplier→part — a direction that is not among the
nine child→parent foreign-key pairs, and differs from the two
partsupp→part / partsupp→supplier edges of the document-style variant. -/
theorem claim_C7_counterexample :
    (partsuppRowStep
        ⟨[⟨"Part", [("partkey", Val.i 1)]⟩, ⟨"Supplier", [("suppkey", Val.i 2)]⟩],
          []⟩
        ⟨1, 2, "3325", "771.64", "c"⟩).rels.map relDir
      = [("SUPPLIES", "Supplier", "Part")]
    ∧ (tableOfLabel "Supplier", tableOfLabel "Part") ∉ fkPairs :=
  ⟨rfl, by decide⟩

/-- C7 (amended): every ArangoDB edge document is directed child→parent
exactly as its foreign key (the nine listed pairs); the Memgraph nation,
supplier, customer, orders and lineitem relationships follow the same
directions, but a partsupp row produces a single SUPPLIES relationship
directed supplier→part instead of the partsupp→part and partsupp→supplier
edges of the document variant. -/
theorem claim_C7 :
    (∀ r : NationRow,
      ((nationRegionEdge r).fromColl, (nationRegionEdge r).toColl)
        = ("nation", "region"))
    ∧ (∀ r : SupplierRow,
      ((supplierNationEdge r).fromColl, (supplierNationEdge r).toColl)
        = ("supplier", "nation"))
    ∧ (∀ r : CustomerRow,
      ((customerNationEdge r).fromColl, (customerNationEdge r).toColl)
        = ("customer", "nation"))
    ∧ (∀ r : OrdersRow,
      ((customerOrdersEdge r).fromColl, (customerOrdersEdge r).toColl)
        = ("customer", "orders"))
    ∧ (∀ r : LineitemRow,
      ((orderLineitemEdge r).fromColl, (orderLineitemEdge r).toColl)
        = ("orders", "lineitem"))
    ∧ (∀ r : LineitemRow,
      ((lineitemPartEdge r).fromColl, (lineitemPartEdge r).toColl)
        = ("lineitem", "part"))
    ∧ (∀ r : LineitemRow,
      ((lineitemSupplierEdge r).fromColl, (lineitemSupplierEdge r).toColl)
        = ("lineitem", "supplier"))
    ∧ (∀ r : PartsuppRow,
      ((partsuppPartEdge r).fromColl, (partsuppPartEdge r).toColl)
        = ("partsupp", "part"))
    ∧ (∀ r : PartsuppRow,
      ((partsuppSupplierEdge r).fromColl, (partsuppSupplierEdge r).toColl)
        = ("partsupp", "supplier"))
    ∧ (("nation", "region") ∈ fkPairs ∧ ("supplier", "nation") ∈ fkPairs ∧
       ("customer", "nation") ∈ fkPairs ∧ ("customer", "orders") ∈ fkPairs ∧
       ("orders", "lineitem") ∈ fkPairs ∧ ("lineitem", "part") ∈ fkPairs ∧
       ("lineitem", "supplier") ∈ fkPairs ∧ ("partsupp", "part") ∈ fkPairs ∧
       ("partsupp", "supplier") ∈ fkPairs)
    ∧ (∀ g r, (regionRowStep g r).rels = g.rels)
    ∧ (∀ g r, (partRowStep g r).rels = g.rels)
    ∧ (∀ g r, (nationRowStep g r).rels.map relDir = g.rels.map relDir
        ∨ (nationRowStep g r).rels.map relDir
            = g.rels.map relDir ++ [("BELONGS_TO", "Nation", "Region")])
    ∧ (∀ g r, (supplierRowStep g r).rels.map relDir = g.rels.map relDir
        ∨ (supplierRowStep g r).rels.map relDir
            = g.rels.map relDir ++ [("LOCATED_IN", "Supplier", "Nation")])
    ∧ (∀ g r, (customerRowStep g r).rels.map relDir = g.rels.map relDir
        ∨ (customerRowStep g r).rels.map relDir
            = g.rels.map relDir ++ [("LOCATED_IN", "Customer", "Nation")])
    ∧ (∀ g r, (ordersRowStep g r).rels.map relDir = g.rels.map relDir
        ∨ (ordersRowStep g r).rels.map relDir
            = g.rels.map relDir ++ [("PLACED", "Customer", "Order")])
    ∧ (∀ g r, (lineitemRowStep g r).rels.map relDir
        = g.rels.map relDir
          ++ List.replicate (liBindings g r) ("CONTAINS", "Order", "LineItem")
          ++ List.replicate (liBindings g r) ("OF_PART", "LineItem", "Part")
          ++ List.replicate (liBindings g r)
              ("SUPPLIED_BY", "LineItem", "Supplier"))
    ∧ ((tableOfLabel "Nation", tableOfLabel "Region") ∈ fkPairs
        ∧ (tableOfLabel "Supplier", tableOfLabel "Nation") ∈ fkPairs
        ∧ (tableOfLabel "Customer", tableOfLabel "Nation") ∈ fkPairs
        ∧ (tableOfLabel "Customer", tableOfLabel "Order") ∈ fkPairs
        ∧ (tableOfLabel "Order", tableOfLabel "LineItem") ∈ fkPairs
        ∧ (tableOfLabel "LineItem", tableOfLabel "Part") ∈ fkPairs
        ∧ (tableOfLabel "LineItem", tableOfLabel "Supplier") ∈ fkPairs)
    ∧ (∀ g r, (partsuppRowStep g r).rels.map relDir = g.rels.map relDir
        ∨ (partsuppRowStep g r).rels.map relDir
            = g.rels.map relDir ++ [("SUPPLIES", "Supplier", "Part")])
    ∧ (tableOfLabel "Supplier", tableOfLabel "Part") ∉ fkPairs := by
  exact ⟨fun r => rfl, fun r => rfl, fun r => rfl, fun r => rfl, fun r => rfl,
    fun r => rfl, fun r => rfl, fun r => rfl, fun r => rfl,
    by decide,
    regionRowStep_rels, partRowStep_rels,
    nationRowStep_dirs, supplierRowStep_dirs, customerRowStep_dirs,
    ordersRowStep_dirs, lineitemRowStep_dirs,
    by decide,
    partsuppRowStep_dirs,
    by decide⟩

/-- C4: in the Memgraph variant, re-running any non-lineitem table load
`k ≥ 1` times leaves the final node count equal to that of a single run
(vertices are merged on their natural key), whereas the lineitem load
creates its LineItem nodes unconditionally: `k` runs over a LineItem-free
store produce `k` times the LineItem nodes of one run. -/
theorem claim_C4 (k : Nat) (hk : 1 ≤ k) (g : MGraph)
    (rr : List MRegionRow) (nr : List MNationRow) (sr : List MSupplierRow)
    (cr : List MCustomerRow) (pr : List MPartRow) (psr : List MPartsuppRow)
    (orr : List MOrdersRow) (lr : List MLineitemRow)
    (h0 : labelCount g "LineItem" = 0) :
    ((mgLoadRegion rr)^[k] g).nodes.length = (mgLoadRegion rr g).nodes.length
    ∧ ((mgLoadNation nr)^[k] g).nodes.length = (mgLoadNation nr g).nodes.length
    ∧ ((mgLoadSupplier sr)^[k] g).nodes.length
        = (mgLoadSupplier sr g).nodes.length
    ∧ ((mgLoadCustomer cr)^[k] g).nodes.length
        = (mgLoadCustomer cr g).nodes.length
    ∧ ((mgLoadPart pr)^[k] g).nodes.length = (mgLoadPart pr g).nodes.length
    ∧ ((mgLoadPartsupp psr)^[k] g).nodes.length
        = (mgLoadPartsupp psr g).nodes.length
    ∧ ((mgLoadOrders orr)^[k] g).nodes.length
        = (mgLoadOrders orr g).nodes.length
    ∧ labelCount ((mgLoadLineitem lr)^[k] g) "LineItem"
        = k * labelCount (mgLoadLineitem lr g) "LineItem" := by
  obtain ⟨j, rfl⟩ : ∃ j, k = j + 1 := ⟨k - 1, by omega⟩
  refine ⟨mgLoadRegion_iterate rr g j, mgLoadNation_iterate nr g j,
    mgLoadSupplier_iterate sr g j, mgLoadCustomer_iterate cr g j,
    mgLoadPart_iterate pr g j, mgLoadPartsupp_iterate psr g j,
    mgLoadOrders_iterate orr g j, ?_⟩
  have h1 : labelCount (mgLoadLineitem lr g) "LineItem" = liTotal lr g := by
    rw [mgLoadLineitem_labelCount, h0, Nat.zero_add]
  rw [mgLoadLineitem_iterate lr g (j + 1), h0, Nat.zero_add, h1]

/-- Witness for C4: two runs over the empty store, with one region row and
one lineitem row. -/
theorem claim_C4_witness :
    ((mgLoadRegion [⟨0, "AFRICA", "x"⟩])^[2] emptyGraph).nodes.length
      = (mgLoadRegion [⟨0, "AFRICA", "x"⟩] emptyGraph).nodes.length
    ∧ labelCount
        ((mgLoadLineitem
          [⟨1, 1, 1, 1, "q", "e", "d", "t", "r", "l", "a", "b", "c", "si",
            "sm", "cm"⟩])^[2] emptyGraph) "LineItem"
      = 2 * labelCount
          (mgLoadLineitem
            [⟨1, 1, 1, 1, "q", "e", "d", "t", "r", "l", "a", "b", "c", "si",
              "sm", "cm"⟩] emptyGraph) "LineItem" := by
  have h := claim_C4 2 (by decide) emptyGraph [⟨0, "AFRICA", "x"⟩] [] [] [] []
    [] []
    [⟨1, 1, 1, 1, "q", "e", "d", "t", "r", "l", "a", "b", "c", "si", "sm",
      "cm"⟩] rfl
  exact ⟨h.1, h.2.2.2.2.2.2.2⟩

end TPCH
